import Mathlib

/-!
# Verification of the LLM provider failover / circuit-breaker subsystem

Shallow embedding of `src/backend/app/services/llm_service.py` (classes
`CircuitBreaker`, `LLMService` and their helpers).  Python mutable objects
become immutable Lean structures with operations returning updated copies;
`datetime.utcnow()` becomes an explicit `now : Nat` argument (seconds);
the random jitter factor drawn by `random.uniform(0.1, 0.3)` becomes an
explicit argument `j : ℚ`; the HTTP call performed by
`_make_provider_request` becomes an oracle `invoke` mapping each attempt to
its outcome (success / InvalidAPIKey / LLMError), which is exactly the set
of exceptions that function can raise.  Dict fields keyed by provider
become total functions from the provider enum.
-/

/-- Embeds enum `LLMProvider` (llm_service.py lines 21-27). -/
inductive LLMProvider where
  | openai
  | anthropic
  | huggingface
  | together
  | mistral
  | kiwi
deriving DecidableEq, Repr

/-- Embeds the `.value` strings of the `LLMProvider` str-enum. -/
def LLMProvider.value : LLMProvider → String
  | .openai => "openai"
  | .anthropic => "anthropic"
  | .huggingface => "huggingface"
  | .together => "together"
  | .mistral => "mistral"
  | .kiwi => "kiwi"

/-- Embeds enum `ProviderStatus` (lines 29-33). -/
inductive ProviderStatus where
  | healthy
  | degraded
  | failed
  | circuit_open
deriving DecidableEq, Repr

/-- Embeds enum `CircuitBreakerState` (lines 35-38). -/
inductive CircuitBreakerState where
  | closed
  | open_
  | half_open
deriving DecidableEq, Repr

/-- Embeds model `LLMResponse` (lines 56-62).  The `usage` / `metadata`
dicts are opaque payload never inspected by the failover logic and are
omitted. -/
structure LLMResponse where
  text : String
  model : String
  provider : String
deriving DecidableEq, Repr

/-- Embeds model `ProviderConfig` (lines 64-72). -/
structure ProviderConfig where
  provider : LLMProvider
  api_key : String
  default_model : String
  max_retries : Nat
  timeout : ℚ
  rate_limit_per_minute : Nat
  priority : Nat
deriving DecidableEq, Repr

/-- Embeds model `RetryConfig` (lines 74-80). -/
structure RetryConfig where
  max_attempts : Nat
  base_delay : ℚ
  max_delay : ℚ
  backoff_multiplier : ℚ
  jitter : Bool
deriving DecidableEq, Repr

/-- Embeds the mutable state of class `CircuitBreaker` (lines 82-105):
constructor parameters and the instance fields initialised in `__init__`.
Timestamps are `Nat` seconds; the sliding window is a list of
(timestamp, wasFailure) pairs exactly as in the source. -/
structure CircuitBreaker where
  provider : String
  failure_threshold : Nat
  recovery_timeout : Nat
  half_open_max_calls : Nat
  failure_count : Nat
  success_count : Nat
  last_failure_time : Option Nat
  last_success_time : Option Nat
  state : CircuitBreakerState
  half_open_calls : Nat
  consecutive_failures : Nat
  total_requests : Nat
  failure_rate_window : List (Nat × Bool)
deriving DecidableEq, Repr

namespace CircuitBreaker

/-- Embeds `CircuitBreaker._should_attempt_reset` (lines 163-167):
true when no failure was recorded yet, or when strictly more than
`recovery_timeout` seconds have elapsed since `last_failure_time`.
The subtraction is carried out in `ℤ` to mirror Python's signed
`timedelta` arithmetic. -/
def _should_attempt_reset (cb : CircuitBreaker) (now : Nat) : Bool :=
  match cb.last_failure_time with
  | none => true
  | some t => decide ((now : ℤ) - (t : ℤ) > (cb.recovery_timeout : ℤ))

/-- Embeds `CircuitBreaker._trip` (lines 169-172). -/
def _trip (cb : CircuitBreaker) (now : Nat) : CircuitBreaker :=
  { cb with state := .open_, last_failure_time := some now }

/-- Embeds `CircuitBreaker._reset` (lines 174-180); `last_failure_time`
is deliberately kept (source comment line 180). -/
def _reset (cb : CircuitBreaker) : CircuitBreaker :=
  { cb with state := .closed, failure_count := 0, half_open_calls := 0,
            consecutive_failures := 0 }

/-- Embeds `CircuitBreaker._cleanup_window` (lines 182-188): drop window
entries whose timestamp is not strictly newer than `now` minus
`window_minutes` minutes. -/
def _cleanup_window (window : List (Nat × Bool)) (now : Nat)
    (window_minutes : Nat) : List (Nat × Bool) :=
  window.filter fun e => decide ((e.1 : ℤ) > (now : ℤ) - (window_minutes : ℤ) * 60)

/-- Embeds `CircuitBreaker.can_execute` (lines 107-120).  Python mutates
the breaker in place when performing the Open→HalfOpen transition; here
the (possibly updated) breaker is returned alongside the decision. -/
def can_execute (cb : CircuitBreaker) (now : Nat) : Bool × CircuitBreaker :=
  match cb.state with
  | .closed => (true, cb)
  | .open_ =>
      if cb._should_attempt_reset now then
        (true, { cb with state := .half_open, half_open_calls := 0 })
      else
        (false, cb)
  | .half_open => (decide (cb.half_open_calls < cb.half_open_max_calls), cb)

/-- Embeds `CircuitBreaker.record_success` (lines 122-142).  The source's
guarded `if self.failure_count > 0: self.failure_count = 0` in the Closed
branch is the unconditional reset written here. -/
def record_success (cb : CircuitBreaker) (now : Nat) : CircuitBreaker :=
  let cb := { cb with
    success_count := cb.success_count + 1,
    total_requests := cb.total_requests + 1,
    consecutive_failures := 0,
    last_success_time := some now,
    failure_rate_window := _cleanup_window (cb.failure_rate_window ++ [(now, false)]) now 5 }
  match cb.state with
  | .half_open =>
      let cb := { cb with half_open_calls := cb.half_open_calls + 1 }
      if cb.half_open_calls ≥ cb.half_open_max_calls then cb._reset else cb
  | .closed => { cb with failure_count := 0 }
  | .open_ => cb

/-- Embeds `CircuitBreaker.record_failure` (lines 144-161). -/
def record_failure (cb : CircuitBreaker) (now : Nat) : CircuitBreaker :=
  let cb := { cb with
    failure_count := cb.failure_count + 1,
    consecutive_failures := cb.consecutive_failures + 1,
    total_requests := cb.total_requests + 1,
    last_failure_time := some now,
    failure_rate_window := _cleanup_window (cb.failure_rate_window ++ [(now, true)]) now 5 }
  match cb.state with
  | .half_open => cb._trip now
  | .closed =>
      if cb.failure_count ≥ cb.failure_threshold then cb._trip now else cb
  | .open_ => cb

/-- Embeds `CircuitBreaker.get_failure_rate` (lines 190-197). -/
def get_failure_rate (cb : CircuitBreaker) : ℚ :=
  if cb.failure_rate_window = [] then 0
  else ((cb.failure_rate_window.filter fun e => e.2).length : ℚ) /
       (cb.failure_rate_window.length : ℚ)

end CircuitBreaker

/-- Embeds model `ProviderHealth` (lines 214-229). -/
structure ProviderHealth where
  provider : String
  status : ProviderStatus
  last_check : Nat
  response_time_ms : Option ℚ
  error_count : Nat
  success_count : Nat
  consecutive_failures : Nat
  failure_rate : ℚ
  circuit_breaker_state : CircuitBreakerState
  last_error : Option String
  last_success : Option Nat
  recovery_attempts : Nat
  is_degraded : Bool
  degradation_reason : Option String
deriving DecidableEq, Repr

/-- Embeds the mutable state of class `LLMService` (lines 231-278): the
provider catalog, the priority-ordered fallback chain, the per-provider
circuit breakers and health records (dicts keyed by provider become total
functions over the provider enum), and the retry configuration. -/
structure LLMService where
  primary_provider : String
  providers : List ProviderConfig
  fallback_chain : List ProviderConfig
  circuit_breakers : LLMProvider → CircuitBreaker
  provider_health : LLMProvider → ProviderHealth
  retry_config : RetryConfig

/-- Embeds `LLMService._calculate_backoff_delay` (lines 439-456).
`j` is the value drawn by `random.uniform(0.1, 0.3)`, made an explicit
argument. -/
def _calculate_backoff_delay (rc : RetryConfig) (attempt : Nat) (j : ℚ) : ℚ :=
  let delay := min (rc.base_delay * rc.backoff_multiplier ^ attempt) rc.max_delay
  if rc.jitter then delay + j * delay else delay

/-- Outcome of one `_make_provider_request` call (lines 550-629): it either
returns an `LLMResponse`, raises `InvalidAPIKey` (HTTP 401/403, line 615)
or raises `LLMError` (every other failure, lines 619, 624, 629). -/
inductive ProviderOutcome where
  | success (r : LLMResponse)
  | invalidKey (msg : String)
  | llmError (msg : String)
deriving DecidableEq, Repr

/-- How the retry loop of `generate_text` (lines 652-680) terminates for one
provider: first success, or the exception re-raised on the final attempt. -/
inductive ProviderCallResult where
  | ok (r : LLMResponse)
  | authFail (msg : String)
  | errFail (msg : String)
deriving DecidableEq, Repr

/-- Observable step inside the per-provider retry loop: one invocation
attempt (`_make_provider_request`, line 654) or one backoff sleep
(`asyncio.sleep`, line 678). -/
inductive RetryEvent where
  | rattempt (i : Nat)
  | rsleep (d : ℚ)
deriving DecidableEq, Repr

/-- Embeds the inner retry loop of `LLMService.generate_text`
(lines 652-680): `for attempt in range(max_retries + 1)` with
`invoke i` the outcome of the `i`-th `_make_provider_request` call and
`j i` the jitter factor drawn for the sleep after attempt `i`.
`remaining` is `max_retries - attempt`; a failing attempt with
`remaining = 0` (i.e. `attempt = max_retries`, the negation of the
source's `attempt < max_retries` test, line 674) re-raises.  Also returns
the list of attempts made and sleeps performed, in order. -/
def retry_loop (invoke : Nat → ProviderOutcome) (rc : RetryConfig)
    (j : Nat → ℚ) : Nat → Nat → ProviderCallResult × List RetryEvent
  | attempt, 0 =>
    match invoke attempt with
    | .success r => (.ok r, [.rattempt attempt])
    | .invalidKey m => (.authFail m, [.rattempt attempt])
    | .llmError m => (.errFail m, [.rattempt attempt])
  | attempt, remaining + 1 =>
    match invoke attempt with
    | .success r => (.ok r, [.rattempt attempt])
    | .invalidKey _ =>
        let d := _calculate_backoff_delay rc attempt (j attempt)
        let out := retry_loop invoke rc j (attempt + 1) remaining
        (out.1, .rattempt attempt :: .rsleep d :: out.2)
    | .llmError _ =>
        let d := _calculate_backoff_delay rc attempt (j attempt)
        let out := retry_loop invoke rc j (attempt + 1) remaining
        (out.1, .rattempt attempt :: .rsleep d :: out.2)

/-- Observable step of one `generate_text` call, tagged with the provider:
invocation attempts and sleeps from the retry loop, plus the
`record_success` (line 657) and `record_failure` (line 699) calls made on
that provider's breaker. -/
inductive TraceEvent where
  | attempt (p : LLMProvider) (i : Nat)
  | sleep (p : LLMProvider) (d : ℚ)
  | rsuccess (p : LLMProvider)
  | rfailure (p : LLMProvider)
deriving DecidableEq, Repr

/-- The provider a trace event concerns. -/
def TraceEvent.provider : TraceEvent → LLMProvider
  | .attempt p _ => p
  | .sleep p _ => p
  | .rsuccess p => p
  | .rfailure p => p

/-- Tag the retry-loop events of provider `p` for the generate-level trace. -/
def tagEvents (p : LLMProvider) (l : List RetryEvent) : List TraceEvent :=
  l.map fun e =>
    match e with
    | .rattempt i => .attempt p i
    | .rsleep d => .sleep p d

/-- Health-record update on provider success inside `generate_text`
(lines 660-668); `cb` is the breaker after `record_success`. -/
def successHealth (h : ProviderHealth) (cb : CircuitBreaker) (now : Nat) :
    ProviderHealth :=
  { h with status := .healthy, error_count := 0,
           success_count := cb.success_count, consecutive_failures := 0,
           failure_rate := cb.get_failure_rate, last_success := some now,
           is_degraded := false, degradation_reason := none }

/-- Health-record update when a provider fails with `InvalidAPIKey`
(lines 686-692): the breaker is not touched. -/
def authFailHealth (h : ProviderHealth) (m : String) : ProviderHealth :=
  { h with status := .failed, last_error := some m,
           error_count := h.error_count + 1,
           recovery_attempts := h.recovery_attempts + 1,
           is_degraded := true,
           degradation_reason := some ("Authentication failure") }

/-- Health-record update when a provider fails with any other exception
(lines 702-711); `cb` is the breaker after `record_failure`. -/
def errFailHealth (h : ProviderHealth) (cb : CircuitBreaker) (m : String) :
    ProviderHealth :=
  { h with status := .failed, error_count := h.error_count + 1,
           consecutive_failures := cb.consecutive_failures,
           failure_rate := cb.get_failure_rate, last_error := some m,
           circuit_breaker_state := cb.state,
           recovery_attempts := h.recovery_attempts + 1,
           is_degraded := true,
           degradation_reason := some ("Request failure: " ++ m.take 100) }

/-- Result of a whole `generate_text` call: the returned response, or the
aggregate `LLMError` raised at lines 718-723 carrying the ordered list of
attempted providers and the last underlying error. -/
inductive GenerateResult where
  | ok (r : LLMResponse)
  | allFailed (attempted : List LLMProvider) (last_error : Option String)
deriving DecidableEq, Repr

/-- Post-state of a `generate_text` call: its result, the breaker and
health maps after the in-place mutations, and the trace of observable
events in order. -/
structure GenOut where
  result : GenerateResult
  circuit_breakers : LLMProvider → CircuitBreaker
  provider_health : LLMProvider → ProviderHealth
  events : List TraceEvent

/-- Embeds the provider loop of `LLMService.generate_text` (lines 631-723),
walking the fallback chain.  `att` accumulates `attempted_providers`
(line 645, most recent first, reversed on exit) and `le` is `last_error`.
Per provider: consult `can_execute` (line 641, storing back the breaker it
may have mutated), on admission run the retry loop, then dispatch on its
outcome exactly as the source's `except` clauses do (success lines
656-671, `InvalidAPIKey` lines 682-695, other exceptions lines 697-715). -/
def generate_go (invoke : LLMProvider → Nat → ProviderOutcome) (now : Nat)
    (j : LLMProvider → Nat → ℚ) (rc : RetryConfig) :
    List ProviderConfig → (LLMProvider → CircuitBreaker) →
    (LLMProvider → ProviderHealth) → Option String → List LLMProvider → GenOut
  | [], cbs, hs, le, att => ⟨.allFailed att.reverse le, cbs, hs, []⟩
  | pc :: rest, cbs, hs, le, att =>
    let p := pc.provider
    let ce := (cbs p).can_execute now
    if ce.1 then
      let n := min pc.max_retries rc.max_attempts
      let rl := retry_loop (invoke p) rc (j p) 0 n
      match rl.1 with
      | .ok r =>
          let cb2 := ce.2.record_success now
          ⟨.ok r, Function.update cbs p cb2,
           Function.update hs p (successHealth (hs p) cb2 now),
           tagEvents p rl.2 ++ [.rsuccess p]⟩
      | .authFail m =>
          let out := generate_go invoke now j rc rest
            (Function.update cbs p ce.2)
            (Function.update hs p (authFailHealth (hs p) m)) (some m) (p :: att)
          ⟨out.result, out.circuit_breakers, out.provider_health,
           tagEvents p rl.2 ++ out.events⟩
      | .errFail m =>
          let cb2 := ce.2.record_failure now
          let out := generate_go invoke now j rc rest
            (Function.update cbs p cb2)
            (Function.update hs p (errFailHealth (hs p) cb2 m)) (some m) (p :: att)
          ⟨out.result, out.circuit_breakers, out.provider_health,
           tagEvents p rl.2 ++ .rfailure p :: out.events⟩
    else
      generate_go invoke now j rc rest (Function.update cbs p ce.2) hs le att

/-- Embeds `LLMService.generate_text` (lines 631-723) applied to a service
state: walk `fallback_chain` starting from the stored breakers and health
records, with `last_error = None` and no attempted providers. -/
def generate_text (svc : LLMService) (invoke : LLMProvider → Nat → ProviderOutcome)
    (now : Nat) (j : LLMProvider → Nat → ℚ) : GenOut :=
  generate_go invoke now j svc.retry_config svc.fallback_chain
    svc.circuit_breakers svc.provider_health none []

/-- Outcome of the test request issued by `validate_api_key`
(lines 332-341): success with the measured response time in milliseconds,
or the raised exception's message. -/
inductive ProbeOutcome where
  | success (response_time_ms : ℚ)
  | failure (msg : String)
deriving DecidableEq, Repr

/-- Embeds `LLMService.validate_api_key` (lines 325-377).  Returns `False`
untouched when the provider is not configured (lines 328-330); otherwise
updates the provider's health record from the probe outcome and the
breaker's counters (success path lines 343-360, exception path lines
362-377).  The formatted degradation message of line 357 is kept as a
constant string.  The breaker itself is never modified. -/
def validate_api_key (svc : LLMService) (p : LLMProvider)
    (probe : ProbeOutcome) (now : Nat) : Bool × LLMService :=
  if (svc.providers.find? fun pc => decide (pc.provider = p)).isNone then
    (false, svc)
  else
    let cb := svc.circuit_breakers p
    let h := svc.provider_health p
    match probe with
    | .success rt =>
        let h := { h with
          status := .healthy, last_check := now,
          last_success := some now, response_time_ms := some rt,
          last_error := none, success_count := cb.success_count,
          consecutive_failures := cb.consecutive_failures,
          failure_rate := cb.get_failure_rate,
          circuit_breaker_state := cb.state,
          is_degraded := decide (rt > 5000),
          degradation_reason :=
            if rt > 5000 then some ("Slow response time") else none }
        (true, { svc with provider_health := Function.update svc.provider_health p h })
    | .failure m =>
        let h := { h with
          status := .failed, last_check := now,
          last_error := some m, error_count := h.error_count + 1,
          consecutive_failures := cb.consecutive_failures,
          failure_rate := cb.get_failure_rate,
          circuit_breaker_state := cb.state,
          recovery_attempts := h.recovery_attempts + 1 }
        (false, { svc with provider_health := Function.update svc.provider_health p h })

/-- The degraded-status reclassification done at the end of
`check_provider_health` (lines 401-410), applied to the health record
fetched after validation; `cb` is the provider's breaker. -/
def degradeAdjust (cb : CircuitBreaker) (h : ProviderHealth) : ProviderHealth :=
  if cb.state = .open_ then
    { h with is_degraded := true,
             degradation_reason := some ("Circuit breaker is OPEN") }
  else if cb.get_failure_rate > 1 / 2 then
    { h with is_degraded := true,
             degradation_reason := some ("High failure rate") }
  else
    match h.response_time_ms with
    | some rt =>
        if rt > 10000 then
          { h with is_degraded := true,
                   degradation_reason := some ("Slow response time") }
        else h
    | none => h

/-- Embeds `LLMService.check_provider_health` (lines 379-412): run
`validate_api_key` unless the breaker is Open with its recovery timeout
not yet elapsed (lines 384-396), then refresh `circuit_breaker_state` and
the degraded classification on the stored health record and return it
(lines 398-412). -/
def check_provider_health (svc : LLMService) (p : LLMProvider)
    (probe : ProbeOutcome) (now : Nat) : ProviderHealth × LLMService :=
  let cb := svc.circuit_breakers p
  let svc1 :=
    if cb.state = .open_ then
      if cb._should_attempt_reset now then (validate_api_key svc p probe now).2
      else svc
    else (validate_api_key svc p probe now).2
  let h := { svc1.provider_health p with circuit_breaker_state := cb.state }
  let h := degradeAdjust cb h
  (h, { svc1 with provider_health := Function.update svc1.provider_health p h })

/-- Helper for `get_available_providers`: the source's loop over the
fallback chain (lines 433-436), threading the breaker map through the
(possibly mutating) `can_execute` calls. -/
def available_go (now : Nat) :
    List ProviderConfig → (LLMProvider → CircuitBreaker) →
    List LLMProvider × (LLMProvider → CircuitBreaker)
  | [], cbs => ([], cbs)
  | pc :: rest, cbs =>
      let ce := (cbs pc.provider).can_execute now
      let out := available_go now rest (Function.update cbs pc.provider ce.2)
      (if ce.1 then pc.provider :: out.1 else out.1, out.2)

/-- Embeds `LLMService.get_available_providers` (lines 430-437). -/
def get_available_providers (svc : LLMService) (now : Nat) :
    List LLMProvider × LLMService :=
  let out := available_go now svc.fallback_chain svc.circuit_breakers
  (out.1, { svc with circuit_breakers := out.2 })

/-- Embeds `LLMService.reset_circuit_breaker` (lines 775-795): `False` if
the provider has no breaker, otherwise `_reset` the breaker and reset the
health record (lines 786-792). -/
def reset_circuit_breaker (svc : LLMService) (p : LLMProvider) :
    Bool × LLMService :=
  if (svc.providers.find? fun pc => decide (pc.provider = p)).isNone then
    (false, svc)
  else
    let cb := (svc.circuit_breakers p)._reset
    let h := { svc.provider_health p with
      status := .healthy, circuit_breaker_state := .closed,
      consecutive_failures := 0, recovery_attempts := 0,
      is_degraded := false, degradation_reason := none }
    (true, { svc with
             circuit_breakers := Function.update svc.circuit_breakers p cb,
             provider_health := Function.update svc.provider_health p h })

/-- `k` consecutive `record_failure` calls at time `now`. -/
def recordFailures (cb : CircuitBreaker) (now k : Nat) : CircuitBreaker :=
  (fun c => CircuitBreaker.record_failure c now)^[k] cb

/-- `k` consecutive `record_success` calls at time `now`. -/
def recordSuccesses (cb : CircuitBreaker) (now k : Nat) : CircuitBreaker :=
  (fun c => CircuitBreaker.record_success c now)^[k] cb

namespace CircuitBreaker

theorem record_failure_last_failure (cb : CircuitBreaker) (now : Nat) :
    (cb.record_failure now).last_failure_time = some now := by
  cases hst : cb.state
  case closed => simp only [record_failure, _trip, hst]; split <;> simp
  case open_ => simp [record_failure, hst]
  case half_open => simp [record_failure, _trip, hst]

theorem record_failure_config (cb : CircuitBreaker) (now : Nat) :
    (cb.record_failure now).failure_threshold = cb.failure_threshold ∧
    (cb.record_failure now).recovery_timeout = cb.recovery_timeout ∧
    (cb.record_failure now).half_open_max_calls = cb.half_open_max_calls := by
  cases hst : cb.state
  case closed => simp only [record_failure, _trip, hst]; split <;> simp
  case open_ => simp [record_failure, hst]
  case half_open => simp [record_failure, _trip, hst]

theorem record_failure_open (cb : CircuitBreaker) (now : Nat)
    (h : cb.state = .open_) : (cb.record_failure now).state = .open_ := by
  simp [record_failure, h]

theorem record_failure_half_open (cb : CircuitBreaker) (now : Nat)
    (h : cb.state = .half_open) : (cb.record_failure now).state = .open_ := by
  simp [record_failure, _trip, h]

theorem record_failure_closed_trip (cb : CircuitBreaker) (now : Nat)
    (h : cb.state = .closed) (hth : cb.failure_threshold ≤ cb.failure_count + 1) :
    (cb.record_failure now).state = .open_ := by
  simp [record_failure, _trip, h, hth]

theorem record_failure_closed_stay (cb : CircuitBreaker) (now : Nat)
    (h : cb.state = .closed) (hth : cb.failure_count + 1 < cb.failure_threshold) :
    (cb.record_failure now).state = .closed ∧
    (cb.record_failure now).failure_count = cb.failure_count + 1 := by
  have : ¬ (cb.failure_threshold ≤ cb.failure_count + 1) := by omega
  simp [record_failure, h, this]

end CircuitBreaker

theorem recordFailures_open (now : Nat) :
    ∀ (k : Nat) (cb : CircuitBreaker), cb.state = .open_ →
      (recordFailures cb now k).state = .open_ := by
  intro k
  induction k with
  | zero => intro cb h; simpa [recordFailures] using h
  | succ n ih =>
      intro cb h
      rw [recordFailures, Function.iterate_succ_apply]
      exact ih _ (cb.record_failure_open now h)

theorem recordFailures_trip (now : Nat) :
    ∀ (k : Nat) (cb : CircuitBreaker), cb.state = .closed →
      cb.failure_threshold ≤ cb.failure_count + (k + 1) →
      (recordFailures cb now (k + 1)).state = .open_ := by
  intro k
  induction k with
  | zero =>
      intro cb h hth
      simpa [recordFailures] using cb.record_failure_closed_trip now h hth
  | succ n ih =>
      intro cb h hth
      rw [recordFailures, Function.iterate_succ_apply]
      by_cases htrip : cb.failure_threshold ≤ cb.failure_count + 1
      · exact recordFailures_open now _ _ (cb.record_failure_closed_trip now h htrip)
      · have hlt : cb.failure_count + 1 < cb.failure_threshold := by omega
        obtain ⟨hs, hc⟩ := cb.record_failure_closed_stay now h hlt
        have hcfg := cb.record_failure_config now
        exact ih _ hs (by omega)

theorem can_execute_open_same_instant (cb : CircuitBreaker) (now : Nat)
    (hst : cb.state = .open_) (hl : cb.last_failure_time = some now) :
    (cb.can_execute now).1 = false := by
  have h0 : ¬ ((cb.recovery_timeout : ℤ) < 0) := by omega
  simp [CircuitBreaker.can_execute, CircuitBreaker._should_attempt_reset, hst, hl, h0]

/-- C4.  For every breaker in the Closed state (with at least one failure
needed to trip), `failure_threshold` consecutive `record_failure` calls
leave it Open with `last_failure_time` recorded, and `can_execute`
immediately afterwards returns false. -/
theorem breaker_trips_after_threshold (cb : CircuitBreaker) (now : Nat)
    (hst : cb.state = .closed) (hth : 1 ≤ cb.failure_threshold) :
    (recordFailures cb now cb.failure_threshold).state = .open_ ∧
    (recordFailures cb now cb.failure_threshold).last_failure_time = some now ∧
    ((recordFailures cb now cb.failure_threshold).can_execute now).1 = false := by
  obtain ⟨m, hm⟩ : ∃ m, cb.failure_threshold = m + 1 :=
    ⟨cb.failure_threshold - 1, by omega⟩
  have hstate : (recordFailures cb now cb.failure_threshold).state = .open_ := by
    rw [hm]
    exact recordFailures_trip now m cb hst (by omega)
  have hlast : (recordFailures cb now cb.failure_threshold).last_failure_time = some now := by
    rw [hm, recordFailures, Function.iterate_succ_apply']
    exact CircuitBreaker.record_failure_last_failure _ now
  exact ⟨hstate, hlast, can_execute_open_same_instant _ now hstate hlast⟩

/-- C4 witness input: a fresh Closed breaker with threshold 3. -/
def cbC4 : CircuitBreaker :=
  { provider := "openai", failure_threshold := 3, recovery_timeout := 60,
    half_open_max_calls := 3, failure_count := 0, success_count := 0,
    last_failure_time := none, last_success_time := none, state := .closed,
    half_open_calls := 0, consecutive_failures := 0, total_requests := 0,
    failure_rate_window := [] }

theorem breaker_trips_after_threshold_witness :
    (recordFailures cbC4 7 cbC4.failure_threshold).state = .open_ ∧
    (recordFailures cbC4 7 cbC4.failure_threshold).last_failure_time = some 7 ∧
    ((recordFailures cbC4 7 cbC4.failure_threshold).can_execute 7).1 = false :=
  breaker_trips_after_threshold cbC4 7 rfl (by decide)

/-- C5 counterexample input: an Open breaker with `last_failure_time = 0`
and `recovery_timeout = 60` (the default). -/
def cbC5 : CircuitBreaker :=
  { provider := "openai", failure_threshold := 5, recovery_timeout := 60,
    half_open_max_calls := 3, failure_count := 5, success_count := 0,
    last_failure_time := some 0, last_success_time := none, state := .open_,
    half_open_calls := 0, consecutive_failures := 5, total_requests := 5,
    failure_rate_window := [] }

/-- C5 counterexample: the claim says the first `can_execute` call at or
after `t0 + recovery_timeout` transitions to HalfOpen and returns true,
but at exactly `t0 + recovery_timeout = 60` the source's strict
`datetime.utcnow() - last_failure_time > timedelta(...)` comparison
(line 167) is false, so the call returns false and the breaker stays
Open. -/
theorem can_execute_boundary_counterexample :
    (cbC5.can_execute 60).1 = false ∧ (cbC5.can_execute 60).2.state = .open_ := by
  decide

/-- C5 amended: an Open breaker with `last_failure_time = t0` denies
execution (unchanged) at every time up to and including
`t0 + recovery_timeout`, and the first `can_execute` call strictly after
that instant transitions it to HalfOpen (probe counter reset to 0) and
returns true. -/
theorem can_execute_recovery_boundary (cb : CircuitBreaker) (t0 : Nat)
    (hst : cb.state = .open_) (hl : cb.last_failure_time = some t0) :
    (∀ t : Nat, t ≤ t0 + cb.recovery_timeout →
        (cb.can_execute t).1 = false ∧ (cb.can_execute t).2 = cb) ∧
    (∀ t : Nat, t0 + cb.recovery_timeout < t →
        (cb.can_execute t).1 = true ∧
        (cb.can_execute t).2.state = .half_open ∧
        (cb.can_execute t).2.half_open_calls = 0) := by
  constructor
  · intro t ht
    have h0 : ¬ ((cb.recovery_timeout : ℤ) < (t : ℤ) - (t0 : ℤ)) := by omega
    simp [CircuitBreaker.can_execute, CircuitBreaker._should_attempt_reset,
      hst, hl, h0]
  · intro t ht
    have h0 : (cb.recovery_timeout : ℤ) < (t : ℤ) - (t0 : ℤ) := by omega
    simp [CircuitBreaker.can_execute, CircuitBreaker._should_attempt_reset,
      hst, hl, h0]

theorem can_execute_recovery_boundary_witness :
    (cbC5.can_execute 60).1 = false ∧ (cbC5.can_execute 60).2 = cbC5 ∧
    (cbC5.can_execute 61).1 = true ∧
    (cbC5.can_execute 61).2.state = .half_open ∧
    (cbC5.can_execute 61).2.half_open_calls = 0 := by
  obtain ⟨hle, hgt⟩ := can_execute_recovery_boundary cbC5 0 rfl rfl
  obtain ⟨a1, a2⟩ := hle 60 (by decide)
  obtain ⟨b1, b2, b3⟩ := hgt 61 (by decide)
  exact ⟨a1, a2, b1, b2, b3⟩

namespace CircuitBreaker

theorem record_success_half_open_stay (cb : CircuitBreaker) (now : Nat)
    (h : cb.state = .half_open)
    (hlt : cb.half_open_calls + 1 < cb.half_open_max_calls) :
    (cb.record_success now).state = .half_open ∧
    (cb.record_success now).half_open_calls = cb.half_open_calls + 1 ∧
    (cb.record_success now).half_open_max_calls = cb.half_open_max_calls := by
  have hnot : ¬ (cb.half_open_max_calls ≤ cb.half_open_calls + 1) := by omega
  simp [record_success, h, hnot]

theorem record_success_half_open_close (cb : CircuitBreaker) (now : Nat)
    (h : cb.state = .half_open)
    (hge : cb.half_open_max_calls ≤ cb.half_open_calls + 1) :
    (cb.record_success now).state = .closed ∧
    (cb.record_success now).consecutive_failures = 0 := by
  simp [record_success, _reset, h, hge]

end CircuitBreaker

theorem recordSuccesses_half_open (now : Nat) :
    ∀ (k : Nat) (cb : CircuitBreaker), cb.state = .half_open →
      cb.half_open_calls + k < cb.half_open_max_calls →
      (recordSuccesses cb now k).state = .half_open ∧
      (recordSuccesses cb now k).half_open_calls = cb.half_open_calls + k ∧
      (recordSuccesses cb now k).half_open_max_calls = cb.half_open_max_calls := by
  intro k
  induction k with
  | zero => intro cb h _; simp [recordSuccesses, h]
  | succ n ih =>
      intro cb h hlt
      rw [recordSuccesses, Function.iterate_succ_apply]
      obtain ⟨h1, h2, h3⟩ :=
        cb.record_success_half_open_stay now h (by omega)
      obtain ⟨g1, g2, g3⟩ := ih (cb.record_success now) h1 (by omega)
      refine ⟨g1, ?_, ?_⟩
      · rw [recordSuccesses] at g2; rw [g2, h2]; omega
      · rw [recordSuccesses] at g3; rw [g3, h3]

/-- C6.  A HalfOpen breaker whose probe counter starts at 0 (as set by the
Open→HalfOpen transition): exactly `half_open_max_calls` consecutive
`record_success` calls close it with `consecutive_failures` reset to 0
(strictly fewer keep it HalfOpen), and a single `record_failure` after any
number of probes short of the budget reopens it immediately with a fresh
`last_failure_time`. -/
theorem half_open_probe_transitions (cb : CircuitBreaker) (now : Nat)
    (hst : cb.state = .half_open) (h0 : cb.half_open_calls = 0)
    (hmax : 1 ≤ cb.half_open_max_calls) :
    ((recordSuccesses cb now cb.half_open_max_calls).state = .closed ∧
     (recordSuccesses cb now cb.half_open_max_calls).consecutive_failures = 0) ∧
    (∀ k, k < cb.half_open_max_calls →
      (recordSuccesses cb now k).state = .half_open) ∧
    (∀ k, k < cb.half_open_max_calls →
      ((recordSuccesses cb now k).record_failure now).state = .open_ ∧
      ((recordSuccesses cb now k).record_failure now).last_failure_time = some now) := by
  have hstay : ∀ k, k < cb.half_open_max_calls →
      (recordSuccesses cb now k).state = .half_open ∧
      (recordSuccesses cb now k).half_open_calls = k ∧
      (recordSuccesses cb now k).half_open_max_calls = cb.half_open_max_calls := by
    intro k hk
    obtain ⟨a, b, c⟩ := recordSuccesses_half_open now k cb hst (by omega)
    exact ⟨a, by rw [b, h0]; omega, c⟩
  refine ⟨?_, fun k hk => (hstay k hk).1, fun k hk => ?_⟩
  · obtain ⟨m, hm⟩ : ∃ m, cb.half_open_max_calls = m + 1 :=
      ⟨cb.half_open_max_calls - 1, by omega⟩
    obtain ⟨a, b, c⟩ := hstay m (by omega)
    have heq : recordSuccesses cb now cb.half_open_max_calls =
        (recordSuccesses cb now m).record_success now := by
      rw [hm, recordSuccesses, Function.iterate_succ_apply', recordSuccesses]
    rw [heq]
    exact (recordSuccesses cb now m).record_success_half_open_close now a
      (by rw [b, c]; omega)
  · exact ⟨(recordSuccesses cb now k).record_failure_half_open now (hstay k hk).1,
      CircuitBreaker.record_failure_last_failure _ now⟩

/-- C6 witness input: a HalfOpen breaker with probe budget 3 and a fresh
probe counter. -/
def cbC6 : CircuitBreaker :=
  { provider := "mistral", failure_threshold := 5, recovery_timeout := 60,
    half_open_max_calls := 3, failure_count := 5, success_count := 2,
    last_failure_time := some 1, last_success_time := none, state := .half_open,
    half_open_calls := 0, consecutive_failures := 5, total_requests := 7,
    failure_rate_window := [] }

theorem half_open_probe_transitions_witness :
    ((recordSuccesses cbC6 9 cbC6.half_open_max_calls).state = .closed ∧
     (recordSuccesses cbC6 9 cbC6.half_open_max_calls).consecutive_failures = 0) ∧
    (∀ k, k < cbC6.half_open_max_calls →
      (recordSuccesses cbC6 9 k).state = .half_open) ∧
    (∀ k, k < cbC6.half_open_max_calls →
      ((recordSuccesses cbC6 9 k).record_failure 9).state = .open_ ∧
      ((recordSuccesses cbC6 9 k).record_failure 9).last_failure_time = some 9) :=
  half_open_probe_transitions cbC6 9 rfl rfl (by decide)

/-- Number of invocation attempts in a retry-loop trace. -/
def attemptCount (l : List RetryEvent) : Nat :=
  (l.filter fun e => match e with | .rattempt _ => true | .rsleep _ => false).length

/-- Number of backoff sleeps in a retry-loop trace. -/
def sleepCount (l : List RetryEvent) : Nat :=
  (l.filter fun e => match e with | .rattempt _ => false | .rsleep _ => true).length

/-- Total backoff wait in a retry-loop trace. -/
def sleepSum (l : List RetryEvent) : ℚ :=
  (l.map fun e => match e with | .rattempt _ => 0 | .rsleep d => d).sum

theorem attemptCount_cons_attempt (i : Nat) (l : List RetryEvent) :
    attemptCount (.rattempt i :: l) = attemptCount l + 1 := by
  simp [attemptCount]

theorem attemptCount_cons_sleep (d : ℚ) (l : List RetryEvent) :
    attemptCount (.rsleep d :: l) = attemptCount l := by
  simp [attemptCount]

theorem sleepCount_cons_attempt (i : Nat) (l : List RetryEvent) :
    sleepCount (.rattempt i :: l) = sleepCount l := by
  simp [sleepCount]

theorem sleepCount_cons_sleep (d : ℚ) (l : List RetryEvent) :
    sleepCount (.rsleep d :: l) = sleepCount l + 1 := by
  simp [sleepCount]

theorem sleepSum_cons_attempt (i : Nat) (l : List RetryEvent) :
    sleepSum (.rattempt i :: l) = sleepSum l := by
  simp [sleepSum]

theorem sleepSum_cons_sleep (d : ℚ) (l : List RetryEvent) :
    sleepSum (.rsleep d :: l) = d + sleepSum l := by
  simp [sleepSum]

theorem retry_attempts_le (invoke : Nat → ProviderOutcome) (rc : RetryConfig)
    (j : Nat → ℚ) : ∀ (n a : Nat),
    attemptCount (retry_loop invoke rc j a n).2 ≤ n + 1 := by
  intro n
  induction n with
  | zero =>
      intro a
      cases h : invoke a <;> simp [retry_loop, h, attemptCount]
  | succ m ih =>
      intro a
      cases h : invoke a
      case success r => simp [retry_loop, h, attemptCount]
      case invalidKey s =>
          have := ih (a + 1)
          simp only [retry_loop, h, attemptCount, List.filter, List.length] at *
          omega
      case llmError s =>
          have := ih (a + 1)
          simp only [retry_loop, h, attemptCount, List.filter, List.length] at *
          omega

theorem retry_all_errors (invoke : Nat → ProviderOutcome) (rc : RetryConfig)
    (j : Nat → ℚ) (m : String) (hfail : ∀ i, invoke i = .llmError m) :
    ∀ (n a : Nat),
    (retry_loop invoke rc j a n).1 = .errFail m ∧
    attemptCount (retry_loop invoke rc j a n).2 = n + 1 ∧
    sleepCount (retry_loop invoke rc j a n).2 = n := by
  intro n
  induction n with
  | zero => intro a; simp [retry_loop, hfail a, attemptCount, sleepCount]
  | succ k ih =>
      intro a
      obtain ⟨h1, h2, h3⟩ := ih (a + 1)
      have hstep1 : (retry_loop invoke rc j a (k + 1)).1 =
          (retry_loop invoke rc j (a + 1) k).1 := by
        simp [retry_loop, hfail a]
      have hstep2 : (retry_loop invoke rc j a (k + 1)).2 =
          .rattempt a :: .rsleep (_calculate_backoff_delay rc a (j a)) ::
            (retry_loop invoke rc j (a + 1) k).2 := by
        simp [retry_loop, hfail a]
      refine ⟨by rw [hstep1]; exact h1, ?_, ?_⟩
      · rw [hstep2, attemptCount_cons_attempt, attemptCount_cons_sleep, h2]
      · rw [hstep2, sleepCount_cons_attempt, sleepCount_cons_sleep, h3]

theorem retry_all_auth (invoke : Nat → ProviderOutcome) (rc : RetryConfig)
    (j : Nat → ℚ) (m : String) (hfail : ∀ i, invoke i = .invalidKey m) :
    ∀ (n a : Nat),
    (retry_loop invoke rc j a n).1 = .authFail m ∧
    attemptCount (retry_loop invoke rc j a n).2 = n + 1 ∧
    sleepCount (retry_loop invoke rc j a n).2 = n := by
  intro n
  induction n with
  | zero => intro a; simp [retry_loop, hfail a, attemptCount, sleepCount]
  | succ k ih =>
      intro a
      obtain ⟨h1, h2, h3⟩ := ih (a + 1)
      have hstep1 : (retry_loop invoke rc j a (k + 1)).1 =
          (retry_loop invoke rc j (a + 1) k).1 := by
        simp [retry_loop, hfail a]
      have hstep2 : (retry_loop invoke rc j a (k + 1)).2 =
          .rattempt a :: .rsleep (_calculate_backoff_delay rc a (j a)) ::
            (retry_loop invoke rc j (a + 1) k).2 := by
        simp [retry_loop, hfail a]
      refine ⟨by rw [hstep1]; exact h1, ?_, ?_⟩
      · rw [hstep2, attemptCount_cons_attempt, attemptCount_cons_sleep, h2]
      · rw [hstep2, sleepCount_cons_attempt, sleepCount_cons_sleep, h3]

theorem retry_all_errors_sleep_total (invoke : Nat → ProviderOutcome)
    (rc : RetryConfig) (j : Nat → ℚ) (m : String)
    (hfail : ∀ i, invoke i = .llmError m) :
    ∀ (n a : Nat), sleepSum (retry_loop invoke rc j a n).2 =
      ∑ i ∈ Finset.range n, _calculate_backoff_delay rc (a + i) (j (a + i)) := by
  intro n
  induction n with
  | zero => intro a; simp [retry_loop, hfail a, sleepSum]
  | succ k ih =>
      intro a
      have hstep2 : (retry_loop invoke rc j a (k + 1)).2 =
          .rattempt a :: .rsleep (_calculate_backoff_delay rc a (j a)) ::
            (retry_loop invoke rc j (a + 1) k).2 := by
        simp [retry_loop, hfail a]
      rw [hstep2, sleepSum_cons_attempt, sleepSum_cons_sleep, ih (a + 1),
        Finset.sum_range_succ']
      have hcongr : ∑ i ∈ Finset.range k,
          _calculate_backoff_delay rc (a + 1 + i) (j (a + 1 + i)) =
          ∑ i ∈ Finset.range k,
          _calculate_backoff_delay rc (a + (i + 1)) (j (a + (i + 1))) := by
        refine Finset.sum_congr rfl fun i _ => ?_
        have h : a + 1 + i = a + (i + 1) := by omega
        rw [h]
      rw [hcongr, Nat.add_zero]
      exact add_comm _ _

/-- C7 counterexample inputs: the default retry configuration
(`retry_max_attempts = 3`, base 1s, multiplier 2.0, jitter on), a provider
with `max_retries = 3`, an invoker failing transiently on every attempt,
and a jitter draw of 0.1 for every sleep. -/
def rcC7 : RetryConfig :=
  { max_attempts := 3, base_delay := 1, max_delay := 60,
    backoff_multiplier := 2, jitter := true }

def pcC7 : ProviderConfig :=
  { provider := .openai, api_key := "key-1", default_model := "gpt-4",
    max_retries := 3, timeout := 60, rate_limit_per_minute := 60, priority := 1 }

def invokeC7 : Nat → ProviderOutcome := fun _ => .llmError ("timeout")

def jC7 : Nat → ℚ := fun _ => 1 / 10

/-- C7 counterexample: the claim caps attempts at
`min(providerMaxRetries, globalMaxAttempts)` (= 3 here) with total backoff
wait of about 1s + 2s, but the source's `for attempt in range(max_retries + 1)`
(line 652) makes 4 attempts, and the run sleeps 1.1s + 2.2s + 4.4s = 7.7s. -/
theorem retry_cap_counterexample :
    ¬ (attemptCount (retry_loop invokeC7 rcC7 jC7 0
          (min pcC7.max_retries rcC7.max_attempts)).2
        ≤ min pcC7.max_retries rcC7.max_attempts) ∧
    attemptCount (retry_loop invokeC7 rcC7 jC7 0
        (min pcC7.max_retries rcC7.max_attempts)).2 = 4 ∧
    sleepSum (retry_loop invokeC7 rcC7 jC7 0
        (min pcC7.max_retries rcC7.max_attempts)).2 = 77 / 10 := by
  have hfail : ∀ i, invokeC7 i = ProviderOutcome.llmError ("timeout") :=
    fun _ => rfl
  have hmin : min pcC7.max_retries rcC7.max_attempts = 3 := by decide
  have hatt : attemptCount (retry_loop invokeC7 rcC7 jC7 0
      (min pcC7.max_retries rcC7.max_attempts)).2 = 4 := by
    rw [hmin]
    exact (retry_all_errors invokeC7 rcC7 jC7 _ hfail 3 0).2.1
  refine ⟨by rw [hatt, hmin]; norm_num, hatt, ?_⟩
  rw [hmin, retry_all_errors_sleep_total invokeC7 rcC7 jC7 _ hfail 3 0]
  rw [Finset.sum_range_succ, Finset.sum_range_succ, Finset.sum_range_succ,
    Finset.sum_range_zero]
  norm_num [_calculate_backoff_delay, rcC7, jC7]

/-- C7 amended: per provider, the retry loop makes at most
`min(providerMaxRetries, globalMaxAttempts) + 1` invocation attempts
(exactly that many when every attempt fails transiently); and in the
scenario (base delay 1s, multiplier 2.0, max 3 attempts, all failing
transiently, jitter factors in [0.1, 0.3]) the total backoff wait before
falling through to the next provider is 1s + 2s + 4s plus jitter,
i.e. between 7.7s and 9.1s. -/
theorem retry_cap_and_backoff (pc : ProviderConfig) (rc : RetryConfig)
    (j : Nat → ℚ) (invoke : Nat → ProviderOutcome) (m : String)
    (hfail : ∀ i, invoke i = ProviderOutcome.llmError m)
    (hbase : rc.base_delay = 1) (hmult : rc.backoff_multiplier = 2)
    (hmaxd : rc.max_delay = 60) (hjit : rc.jitter = true)
    (hatt : rc.max_attempts = 3) (hpc : 3 ≤ pc.max_retries)
    (hj : ∀ i, 1 / 10 ≤ j i ∧ j i ≤ 3 / 10) :
    (∀ invoke0 : Nat → ProviderOutcome,
       attemptCount (retry_loop invoke0 rc j 0
           (min pc.max_retries rc.max_attempts)).2
         ≤ min pc.max_retries rc.max_attempts + 1) ∧
    attemptCount (retry_loop invoke rc j 0
        (min pc.max_retries rc.max_attempts)).2
      = min pc.max_retries rc.max_attempts + 1 ∧
    77 / 10 ≤ sleepSum (retry_loop invoke rc j 0
        (min pc.max_retries rc.max_attempts)).2 ∧
    sleepSum (retry_loop invoke rc j 0
        (min pc.max_retries rc.max_attempts)).2 ≤ 91 / 10 := by
  have hmin : min pc.max_retries rc.max_attempts = 3 := by
    rw [hatt]; exact min_eq_right hpc
  have hd : ∀ (k : Nat) (x : ℚ), _calculate_backoff_delay rc k x =
      min ((2 : ℚ) ^ k) 60 + x * min ((2 : ℚ) ^ k) 60 := by
    intro k x
    simp [_calculate_backoff_delay, hbase, hmult, hmaxd, hjit]
  have hS : sleepSum (retry_loop invoke rc j 0
      (min pc.max_retries rc.max_attempts)).2 =
      (min ((2 : ℚ) ^ 0) 60 + j 0 * min ((2 : ℚ) ^ 0) 60) +
      (min ((2 : ℚ) ^ 1) 60 + j 1 * min ((2 : ℚ) ^ 1) 60) +
      (min ((2 : ℚ) ^ 2) 60 + j 2 * min ((2 : ℚ) ^ 2) 60) := by
    rw [hmin, retry_all_errors_sleep_total invoke rc j m hfail 3 0]
    rw [Finset.sum_range_succ, Finset.sum_range_succ, Finset.sum_range_succ,
      Finset.sum_range_zero]
    rw [Nat.zero_add, Nat.zero_add, Nat.zero_add, hd, hd, hd, zero_add]
  have m0 : min ((2 : ℚ) ^ 0) 60 = 1 := by norm_num
  have m1 : min ((2 : ℚ) ^ 1) 60 = 2 := by norm_num
  have m2 : min ((2 : ℚ) ^ 2) 60 = 4 := by norm_num
  rw [m0, m1, m2] at hS
  obtain ⟨ha0, hb0⟩ := hj 0
  obtain ⟨ha1, hb1⟩ := hj 1
  obtain ⟨ha2, hb2⟩ := hj 2
  refine ⟨fun invoke0 => retry_attempts_le invoke0 rc j _ 0,
    (retry_all_errors invoke rc j m hfail _ 0).2.1, ?_, ?_⟩ <;>
    rw [hS] <;> linarith

theorem retry_cap_and_backoff_witness :
    (∀ invoke0 : Nat → ProviderOutcome,
       attemptCount (retry_loop invoke0 rcC7 jC7 0
           (min pcC7.max_retries rcC7.max_attempts)).2
         ≤ min pcC7.max_retries rcC7.max_attempts + 1) ∧
    attemptCount (retry_loop invokeC7 rcC7 jC7 0
        (min pcC7.max_retries rcC7.max_attempts)).2
      = min pcC7.max_retries rcC7.max_attempts + 1 ∧
    77 / 10 ≤ sleepSum (retry_loop invokeC7 rcC7 jC7 0
        (min pcC7.max_retries rcC7.max_attempts)).2 ∧
    sleepSum (retry_loop invokeC7 rcC7 jC7 0
        (min pcC7.max_retries rcC7.max_attempts)).2 ≤ 91 / 10 :=
  retry_cap_and_backoff pcC7 rcC7 jC7 invokeC7 ("timeout")
    (fun _ => rfl) rfl rfl rfl rfl rfl (by decide)
    (fun _ => by constructor <;> norm_num [jC7])

theorem can_execute_closed (cb : CircuitBreaker) (now : Nat)
    (h : cb.state = .closed) : cb.can_execute now = (true, cb) := by
  simp [CircuitBreaker.can_execute, h]

theorem can_execute_false_frame (cb : CircuitBreaker) (now : Nat)
    (h : (cb.can_execute now).1 = false) : (cb.can_execute now).2 = cb := by
  cases hst : cb.state
  case closed => simp [CircuitBreaker.can_execute, hst] at h
  case open_ =>
      simp only [CircuitBreaker.can_execute, hst] at h ⊢
      split at h
      · simp at h
      · simp_all
  case half_open => simp [CircuitBreaker.can_execute, hst]

theorem generate_go_skip (invoke : LLMProvider → Nat → ProviderOutcome)
    (now : Nat) (j : LLMProvider → Nat → ℚ) (rc : RetryConfig)
    (pc : ProviderConfig) (rest : List ProviderConfig)
    (cbs : LLMProvider → CircuitBreaker) (hs : LLMProvider → ProviderHealth)
    (le : Option String) (att : List LLMProvider)
    (hce : ((cbs pc.provider).can_execute now).1 = false) :
    generate_go invoke now j rc (pc :: rest) cbs hs le att =
    generate_go invoke now j rc rest
      (Function.update cbs pc.provider ((cbs pc.provider).can_execute now).2)
      hs le att := by
  simp [generate_go, hce]

theorem generate_go_ok (invoke : LLMProvider → Nat → ProviderOutcome)
    (now : Nat) (j : LLMProvider → Nat → ℚ) (rc : RetryConfig)
    (pc : ProviderConfig) (rest : List ProviderConfig)
    (cbs : LLMProvider → CircuitBreaker) (hs : LLMProvider → ProviderHealth)
    (le : Option String) (att : List LLMProvider) (r : LLMResponse)
    (hce : ((cbs pc.provider).can_execute now).1 = true)
    (hrl : (retry_loop (invoke pc.provider) rc (j pc.provider) 0
        (min pc.max_retries rc.max_attempts)).1 = .ok r) :
    generate_go invoke now j rc (pc :: rest) cbs hs le att =
    ⟨.ok r,
     Function.update cbs pc.provider
       (((cbs pc.provider).can_execute now).2.record_success now),
     Function.update hs pc.provider
       (successHealth (hs pc.provider)
         (((cbs pc.provider).can_execute now).2.record_success now) now),
     tagEvents pc.provider
       (retry_loop (invoke pc.provider) rc (j pc.provider) 0
         (min pc.max_retries rc.max_attempts)).2 ++
       [.rsuccess pc.provider]⟩ := by
  simp [generate_go, hce, hrl]

theorem generate_go_auth (invoke : LLMProvider → Nat → ProviderOutcome)
    (now : Nat) (j : LLMProvider → Nat → ℚ) (rc : RetryConfig)
    (pc : ProviderConfig) (rest : List ProviderConfig)
    (cbs : LLMProvider → CircuitBreaker) (hs : LLMProvider → ProviderHealth)
    (le : Option String) (att : List LLMProvider) (m : String)
    (hce : ((cbs pc.provider).can_execute now).1 = true)
    (hrl : (retry_loop (invoke pc.provider) rc (j pc.provider) 0
        (min pc.max_retries rc.max_attempts)).1 = .authFail m) :
    generate_go invoke now j rc (pc :: rest) cbs hs le att =
    ⟨(generate_go invoke now j rc rest
        (Function.update cbs pc.provider ((cbs pc.provider).can_execute now).2)
        (Function.update hs pc.provider (authFailHealth (hs pc.provider) m))
        (some m) (pc.provider :: att)).result,
     (generate_go invoke now j rc rest
        (Function.update cbs pc.provider ((cbs pc.provider).can_execute now).2)
        (Function.update hs pc.provider (authFailHealth (hs pc.provider) m))
        (some m) (pc.provider :: att)).circuit_breakers,
     (generate_go invoke now j rc rest
        (Function.update cbs pc.provider ((cbs pc.provider).can_execute now).2)
        (Function.update hs pc.provider (authFailHealth (hs pc.provider) m))
        (some m) (pc.provider :: att)).provider_health,
     tagEvents pc.provider
       (retry_loop (invoke pc.provider) rc (j pc.provider) 0
         (min pc.max_retries rc.max_attempts)).2 ++
       (generate_go invoke now j rc rest
         (Function.update cbs pc.provider ((cbs pc.provider).can_execute now).2)
         (Function.update hs pc.provider (authFailHealth (hs pc.provider) m))
         (some m) (pc.provider :: att)).events⟩ := by
  simp [generate_go, hce, hrl]

theorem generate_go_err (invoke : LLMProvider → Nat → ProviderOutcome)
    (now : Nat) (j : LLMProvider → Nat → ℚ) (rc : RetryConfig)
    (pc : ProviderConfig) (rest : List ProviderConfig)
    (cbs : LLMProvider → CircuitBreaker) (hs : LLMProvider → ProviderHealth)
    (le : Option String) (att : List LLMProvider) (m : String)
    (hce : ((cbs pc.provider).can_execute now).1 = true)
    (hrl : (retry_loop (invoke pc.provider) rc (j pc.provider) 0
        (min pc.max_retries rc.max_attempts)).1 = .errFail m) :
    generate_go invoke now j rc (pc :: rest) cbs hs le att =
    ⟨(generate_go invoke now j rc rest
        (Function.update cbs pc.provider
          (((cbs pc.provider).can_execute now).2.record_failure now))
        (Function.update hs pc.provider (errFailHealth (hs pc.provider)
          (((cbs pc.provider).can_execute now).2.record_failure now) m))
        (some m) (pc.provider :: att)).result,
     (generate_go invoke now j rc rest
        (Function.update cbs pc.provider
          (((cbs pc.provider).can_execute now).2.record_failure now))
        (Function.update hs pc.provider (errFailHealth (hs pc.provider)
          (((cbs pc.provider).can_execute now).2.record_failure now) m))
        (some m) (pc.provider :: att)).circuit_breakers,
     (generate_go invoke now j rc rest
        (Function.update cbs pc.provider
          (((cbs pc.provider).can_execute now).2.record_failure now))
        (Function.update hs pc.provider (errFailHealth (hs pc.provider)
          (((cbs pc.provider).can_execute now).2.record_failure now) m))
        (some m) (pc.provider :: att)).provider_health,
     tagEvents pc.provider
       (retry_loop (invoke pc.provider) rc (j pc.provider) 0
         (min pc.max_retries rc.max_attempts)).2 ++
       .rfailure pc.provider ::
       (generate_go invoke now j rc rest
         (Function.update cbs pc.provider
           (((cbs pc.provider).can_execute now).2.record_failure now))
         (Function.update hs pc.provider (errFailHealth (hs pc.provider)
           (((cbs pc.provider).can_execute now).2.record_failure now) m))
         (some m) (pc.provider :: att)).events⟩ := by
  simp [generate_go, hce, hrl]

/-- Attempts made against provider `p` in a generate-level trace. -/
def attemptsFor (p : LLMProvider) (l : List TraceEvent) : Nat :=
  (l.filter fun e =>
    match e with | .attempt q _ => decide (q = p) | _ => false).length

/-- Backoff sleeps performed against provider `p` in a generate-level trace. -/
def sleepsFor (p : LLMProvider) (l : List TraceEvent) : Nat :=
  (l.filter fun e =>
    match e with | .sleep q _ => decide (q = p) | _ => false).length

theorem attemptsFor_tagEvents (p : LLMProvider) (l : List RetryEvent) :
    attemptsFor p (tagEvents p l) = attemptCount l := by
  induction l with
  | nil => simp [attemptsFor, tagEvents, attemptCount]
  | cons e t ih =>
      cases e <;>
        simp_all [attemptsFor, tagEvents, attemptCount, List.filter_cons]

theorem sleepsFor_tagEvents (p : LLMProvider) (l : List RetryEvent) :
    sleepsFor p (tagEvents p l) = sleepCount l := by
  induction l with
  | nil => simp [sleepsFor, tagEvents, sleepCount]
  | cons e t ih =>
      cases e <;>
        simp_all [sleepsFor, tagEvents, sleepCount, List.filter_cons]

theorem tagEvents_no_rsuccess (p q : LLMProvider) (l : List RetryEvent) :
    TraceEvent.rsuccess q ∉ tagEvents p l := by
  simp only [tagEvents, List.mem_map]
  rintro ⟨a, _, ha⟩
  cases a <;> simp at ha

theorem tagEvents_no_rfailure (p q : LLMProvider) (l : List RetryEvent) :
    TraceEvent.rfailure q ∉ tagEvents p l := by
  simp only [tagEvents, List.mem_map]
  rintro ⟨a, _, ha⟩
  cases a <;> simp at ha

theorem tagEvents_provider (p : LLMProvider) (l : List RetryEvent) :
    ∀ e ∈ tagEvents p l, e.provider = p := by
  intro e he
  simp only [tagEvents, List.mem_map] at he
  obtain ⟨a, _, rfl⟩ := he
  cases a <;> rfl

theorem retry_ok_inv (invoke : Nat → ProviderOutcome) (rc : RetryConfig)
    (j : Nat → ℚ) : ∀ (n a : Nat) (r : LLMResponse),
    (retry_loop invoke rc j a n).1 = .ok r → ∃ i, invoke i = .success r := by
  intro n
  induction n with
  | zero =>
      intro a r h
      cases hi : invoke a <;> simp [retry_loop, hi] at h
      exact ⟨a, by rw [hi, h]⟩
  | succ k ih =>
      intro a r h
      cases hi : invoke a
      case success r0 =>
          simp [retry_loop, hi] at h
          exact ⟨a, by rw [hi, h]⟩
      case invalidKey m =>
          simp only [retry_loop, hi] at h
          exact ih (a + 1) r h
      case llmError m =>
          simp only [retry_loop, hi] at h
          exact ih (a + 1) r h

/-- C3.  If a provider's breaker is Closed and every attempt against it
raises `InvalidAPIKey`, the whole provider step leaves every circuit
breaker untouched (the continuation receives `cbs` itself, so the Closed
breaker is still Closed and no counter moved — `record_failure` is never
called), sets that provider's health record to status Failed, and the
call continues with the next provider in the chain. -/
theorem generate_auth_leaves_breaker (invoke : LLMProvider → Nat → ProviderOutcome)
    (now : Nat) (j : LLMProvider → Nat → ℚ) (rc : RetryConfig)
    (pc : ProviderConfig) (rest : List ProviderConfig)
    (cbs : LLMProvider → CircuitBreaker) (hs : LLMProvider → ProviderHealth)
    (le : Option String) (att : List LLMProvider) (m : String)
    (hclosed : (cbs pc.provider).state = CircuitBreakerState.closed)
    (hinv : ∀ i, invoke pc.provider i = ProviderOutcome.invalidKey m) :
    generate_go invoke now j rc (pc :: rest) cbs hs le att =
    ⟨(generate_go invoke now j rc rest cbs
        (Function.update hs pc.provider (authFailHealth (hs pc.provider) m))
        (some m) (pc.provider :: att)).result,
     (generate_go invoke now j rc rest cbs
        (Function.update hs pc.provider (authFailHealth (hs pc.provider) m))
        (some m) (pc.provider :: att)).circuit_breakers,
     (generate_go invoke now j rc rest cbs
        (Function.update hs pc.provider (authFailHealth (hs pc.provider) m))
        (some m) (pc.provider :: att)).provider_health,
     tagEvents pc.provider
       (retry_loop (invoke pc.provider) rc (j pc.provider) 0
         (min pc.max_retries rc.max_attempts)).2 ++
       (generate_go invoke now j rc rest cbs
         (Function.update hs pc.provider (authFailHealth (hs pc.provider) m))
         (some m) (pc.provider :: att)).events⟩ ∧
    (Function.update hs pc.provider
        (authFailHealth (hs pc.provider) m) pc.provider).status
      = ProviderStatus.failed := by
  have hce := can_execute_closed (cbs pc.provider) now hclosed
  have hce1 : ((cbs pc.provider).can_execute now).1 = true := by rw [hce]
  have hce2 : ((cbs pc.provider).can_execute now).2 = cbs pc.provider := by
    rw [hce]
  have hauth := (retry_all_auth (invoke pc.provider) rc (j pc.provider) m hinv
    (min pc.max_retries rc.max_attempts) 0).1
  constructor
  · rw [generate_go_auth invoke now j rc pc rest cbs hs le att m hce1 hauth,
      hce2, Function.update_eq_self]
  · rw [Function.update_same]
    rfl

/-- C2 amended.  An authentication failure IS retried against the same
provider exactly like a transient failure: the retry loop makes
`min(providerMaxRetries, globalMaxAttempts) + 1` attempts with a backoff
sleep after each non-final one; only after the final attempt does the
orchestrator move on to the next provider (without any `record_failure`
or `record_success` on the breaker). -/
theorem generate_auth_retried_with_backoff
    (invoke : LLMProvider → Nat → ProviderOutcome)
    (now : Nat) (j : LLMProvider → Nat → ℚ) (rc : RetryConfig)
    (pc : ProviderConfig) (rest : List ProviderConfig)
    (cbs : LLMProvider → CircuitBreaker) (hs : LLMProvider → ProviderHealth)
    (le : Option String) (att : List LLMProvider) (m : String)
    (hclosed : (cbs pc.provider).state = CircuitBreakerState.closed)
    (hinv : ∀ i, invoke pc.provider i = ProviderOutcome.invalidKey m) :
    ∃ headEvs : List TraceEvent,
      generate_go invoke now j rc (pc :: rest) cbs hs le att =
      ⟨(generate_go invoke now j rc rest cbs
          (Function.update hs pc.provider (authFailHealth (hs pc.provider) m))
          (some m) (pc.provider :: att)).result,
       (generate_go invoke now j rc rest cbs
          (Function.update hs pc.provider (authFailHealth (hs pc.provider) m))
          (some m) (pc.provider :: att)).circuit_breakers,
       (generate_go invoke now j rc rest cbs
          (Function.update hs pc.provider (authFailHealth (hs pc.provider) m))
          (some m) (pc.provider :: att)).provider_health,
       headEvs ++ (generate_go invoke now j rc rest cbs
          (Function.update hs pc.provider (authFailHealth (hs pc.provider) m))
          (some m) (pc.provider :: att)).events⟩ ∧
      attemptsFor pc.provider headEvs = min pc.max_retries rc.max_attempts + 1 ∧
      sleepsFor pc.provider headEvs = min pc.max_retries rc.max_attempts ∧
      TraceEvent.rfailure pc.provider ∉ headEvs ∧
      TraceEvent.rsuccess pc.provider ∉ headEvs := by
  have hce := can_execute_closed (cbs pc.provider) now hclosed
  have hce1 : ((cbs pc.provider).can_execute now).1 = true := by rw [hce]
  have hce2 : ((cbs pc.provider).can_execute now).2 = cbs pc.provider := by
    rw [hce]
  obtain ⟨hres, hcnt, hslp⟩ := retry_all_auth (invoke pc.provider) rc
    (j pc.provider) m hinv (min pc.max_retries rc.max_attempts) 0
  refine ⟨tagEvents pc.provider
    (retry_loop (invoke pc.provider) rc (j pc.provider) 0
      (min pc.max_retries rc.max_attempts)).2, ?_, ?_, ?_, ?_, ?_⟩
  · rw [generate_go_auth invoke now j rc pc rest cbs hs le att m hce1 hres,
      hce2, Function.update_eq_self]
  · rw [attemptsFor_tagEvents, hcnt]
  · rw [sleepsFor_tagEvents, hslp]
  · exact tagEvents_no_rfailure _ _ _
  · exact tagEvents_no_rsuccess _ _ _

/-- A freshly constructed breaker, as `CircuitBreaker.__init__` leaves it
with the default settings (threshold 5, recovery 60s, 3 half-open calls). -/
def cbInit (s : String) : CircuitBreaker :=
  { provider := s, failure_threshold := 5, recovery_timeout := 60,
    half_open_max_calls := 3, failure_count := 0, success_count := 0,
    last_failure_time := none, last_success_time := none, state := .closed,
    half_open_calls := 0, consecutive_failures := 0, total_requests := 0,
    failure_rate_window := [] }

/-- A provider health record as `LLMService.__init__` creates it. -/
def healthInit (s : String) : ProviderHealth :=
  { provider := s, status := .healthy, last_check := 0,
    response_time_ms := none, error_count := 0, success_count := 0,
    consecutive_failures := 0, failure_rate := 0,
    circuit_breaker_state := .closed, last_error := none, last_success := none,
    recovery_attempts := 0, is_degraded := false, degradation_reason := none }

def cbsInit : LLMProvider → CircuitBreaker := fun p => cbInit p.value

def hsInit : LLMProvider → ProviderHealth := fun p => healthInit p.value

def pcA : ProviderConfig :=
  { provider := .openai, api_key := "key-a", default_model := "gpt-4",
    max_retries := 1, timeout := 60, rate_limit_per_minute := 60, priority := 1 }

def pcB : ProviderConfig :=
  { provider := .mistral, api_key := "key-b", default_model := "mistral-small",
    max_retries := 1, timeout := 60, rate_limit_per_minute := 60, priority := 2 }

/-- The default retry configuration from settings (config.py lines 89-92). -/
def rcEx : RetryConfig :=
  { max_attempts := 3, base_delay := 1, max_delay := 60,
    backoff_multiplier := 2, jitter := true }

def jEx : LLMProvider → Nat → ℚ := fun _ _ => 1 / 10

/-- An invoker whose every call raises `InvalidAPIKey`. -/
def invokeAuth : LLMProvider → Nat → ProviderOutcome :=
  fun _ _ => .invalidKey ("bad key")

def svcAuth : LLMService :=
  { primary_provider := "openai", providers := [pcA],
    fallback_chain := [pcA], circuit_breakers := cbsInit,
    provider_health := hsInit, retry_config := rcEx }

/-- C2 counterexample: with one configured provider (max_retries = 1,
global max_attempts = 3) whose every call raises `InvalidAPIKey`, a
`generate_text` run performs 2 invocation attempts against it and 1
backoff sleep — the claim says an authentication failure is never retried
and no backoff sleep is performed. -/
theorem generate_auth_counterexample :
    attemptsFor LLMProvider.openai
      (generate_text svcAuth invokeAuth 0 jEx).events = 2 ∧
    sleepsFor LLMProvider.openai
      (generate_text svcAuth invokeAuth 0 jEx).events = 1 := by
  decide

theorem generate_auth_retried_with_backoff_witness :
    ∃ headEvs : List TraceEvent,
      generate_go invokeAuth 0 jEx rcEx (pcA :: [pcB]) cbsInit hsInit none [] =
      ⟨(generate_go invokeAuth 0 jEx rcEx [pcB] cbsInit
          (Function.update hsInit pcA.provider
            (authFailHealth (hsInit pcA.provider) ("bad key")))
          (some ("bad key")) (pcA.provider :: [])).result,
       (generate_go invokeAuth 0 jEx rcEx [pcB] cbsInit
          (Function.update hsInit pcA.provider
            (authFailHealth (hsInit pcA.provider) ("bad key")))
          (some ("bad key")) (pcA.provider :: [])).circuit_breakers,
       (generate_go invokeAuth 0 jEx rcEx [pcB] cbsInit
          (Function.update hsInit pcA.provider
            (authFailHealth (hsInit pcA.provider) ("bad key")))
          (some ("bad key")) (pcA.provider :: [])).provider_health,
       headEvs ++ (generate_go invokeAuth 0 jEx rcEx [pcB] cbsInit
          (Function.update hsInit pcA.provider
            (authFailHealth (hsInit pcA.provider) ("bad key")))
          (some ("bad key")) (pcA.provider :: [])).events⟩ ∧
      attemptsFor pcA.provider headEvs = min pcA.max_retries rcEx.max_attempts + 1 ∧
      sleepsFor pcA.provider headEvs = min pcA.max_retries rcEx.max_attempts ∧
      TraceEvent.rfailure pcA.provider ∉ headEvs ∧
      TraceEvent.rsuccess pcA.provider ∉ headEvs :=
  generate_auth_retried_with_backoff invokeAuth 0 jEx rcEx pcA [pcB]
    cbsInit hsInit none [] ("bad key") rfl (fun _ => rfl)

theorem generate_auth_leaves_breaker_witness :
    generate_go invokeAuth 0 jEx rcEx (pcA :: [pcB]) cbsInit hsInit none [] =
    ⟨(generate_go invokeAuth 0 jEx rcEx [pcB] cbsInit
        (Function.update hsInit pcA.provider
          (authFailHealth (hsInit pcA.provider) ("bad key")))
        (some ("bad key")) (pcA.provider :: [])).result,
     (generate_go invokeAuth 0 jEx rcEx [pcB] cbsInit
        (Function.update hsInit pcA.provider
          (authFailHealth (hsInit pcA.provider) ("bad key")))
        (some ("bad key")) (pcA.provider :: [])).circuit_breakers,
     (generate_go invokeAuth 0 jEx rcEx [pcB] cbsInit
        (Function.update hsInit pcA.provider
          (authFailHealth (hsInit pcA.provider) ("bad key")))
        (some ("bad key")) (pcA.provider :: [])).provider_health,
     tagEvents pcA.provider
       (retry_loop (invokeAuth pcA.provider) rcEx (jEx pcA.provider) 0
         (min pcA.max_retries rcEx.max_attempts)).2 ++
       (generate_go invokeAuth 0 jEx rcEx [pcB] cbsInit
         (Function.update hsInit pcA.provider
           (authFailHealth (hsInit pcA.provider) ("bad key")))
         (some ("bad key")) (pcA.provider :: [])).events⟩ ∧
    (Function.update hsInit pcA.provider
        (authFailHealth (hsInit pcA.provider) ("bad key")) pcA.provider).status
      = ProviderStatus.failed :=
  generate_auth_leaves_breaker invokeAuth 0 jEx rcEx pcA [pcB]
    cbsInit hsInit none [] ("bad key") rfl (fun _ => rfl)

theorem generate_go_ok_structure (invoke : LLMProvider → Nat → ProviderOutcome)
    (now : Nat) (j : LLMProvider → Nat → ℚ) (rc : RetryConfig) :
    ∀ (chain : List ProviderConfig) (cbs : LLMProvider → CircuitBreaker)
      (hs : LLMProvider → ProviderHealth) (le : Option String)
      (att : List LLMProvider) (r : LLMResponse),
      (chain.map fun q => q.provider).Nodup →
      (generate_go invoke now j rc chain cbs hs le att).result = .ok r →
      ∃ pre pc post,
        chain = pre ++ pc :: post ∧
        (∃ i, invoke pc.provider i = ProviderOutcome.success r) ∧
        TraceEvent.rsuccess pc.provider ∈
          (generate_go invoke now j rc chain cbs hs le att).events ∧
        (∃ b : CircuitBreaker,
          (generate_go invoke now j rc chain cbs hs le att).circuit_breakers
            pc.provider = b.record_success now) ∧
        (∀ e ∈ (generate_go invoke now j rc chain cbs hs le att).events,
          e.provider ∈ (pre ++ [pc]).map fun q => q.provider) ∧
        (∀ q ∈ pre, TraceEvent.rsuccess q.provider ∉
          (generate_go invoke now j rc chain cbs hs le att).events) := by
  intro chain
  induction chain with
  | nil =>
      intro cbs hs le att r hnd hok
      simp [generate_go] at hok
  | cons pc rest ih =>
      intro cbs hs le att r hnd hok
      rw [List.map_cons, List.nodup_cons] at hnd
      obtain ⟨hpnot, hnd'⟩ := hnd
      cases hce : ((cbs pc.provider).can_execute now).1
      case false =>
          have heq := generate_go_skip invoke now j rc pc rest cbs hs le att hce
          rw [heq] at hok
          obtain ⟨pre', pc', post', hchain, hi, hmem, hcb, hdom, hnos⟩ :=
            ih _ hs le att r hnd' hok
          have hsub : ∀ x, x ∈ ((pre' ++ [pc']).map fun q => q.provider) →
              x ∈ rest.map fun q => q.provider := by
            intro x hx
            rw [hchain]
            simp only [List.map_append, List.map_cons, List.mem_append,
              List.mem_cons, List.map_nil, List.mem_singleton] at hx ⊢
            tauto
          refine ⟨pc :: pre', pc', post', by rw [hchain, List.cons_append], hi, ?_, ?_, ?_, ?_⟩
          · rw [heq]; exact hmem
          · rw [heq]; exact hcb
          · rw [heq]
            intro e he
            have hd := hdom e he
            simp only [List.cons_append, List.map_cons, List.mem_cons]
            simp only [List.map_append] at hd ⊢
            right
            exact hd
          · rw [heq]
            intro q hq
            rcases List.mem_cons.mp hq with rfl | hq'
            · intro habs
              have := hdom _ habs
              exact hpnot (hsub _ this)
            · exact hnos q hq'
      case true =>
          rcases hrl : (retry_loop (invoke pc.provider) rc (j pc.provider) 0
              (min pc.max_retries rc.max_attempts)).1 with r0 | m | m
          case ok =>
              have heq := generate_go_ok invoke now j rc pc rest cbs hs le att
                r0 hce hrl
              rw [heq] at hok
              have hr : r0 = r := by simpa using hok
              subst hr
              refine ⟨[], pc, rest, rfl,
                retry_ok_inv (invoke pc.provider) rc (j pc.provider) _ 0 r0 hrl,
                ?_, ?_, ?_, ?_⟩
              · rw [heq]
                exact List.mem_append_right _ (by simp)
              · rw [heq]
                exact ⟨((cbs pc.provider).can_execute now).2,
                  Function.update_same _ _ _⟩
              · rw [heq]
                intro e he
                rcases List.mem_append.mp he with h1 | h1
                · simp [tagEvents_provider pc.provider _ e h1]
                · simp only [List.mem_singleton] at h1
                  subst h1
                  simp [TraceEvent.provider]
              · intro q hq
                simp at hq
          case authFail =>
              have heq := generate_go_auth invoke now j rc pc rest cbs hs le att
                m hce hrl
              rw [heq] at hok
              replace hok : (generate_go invoke now j rc rest
                  (Function.update cbs pc.provider
                    ((cbs pc.provider).can_execute now).2)
                  (Function.update hs pc.provider
                    (authFailHealth (hs pc.provider) m))
                  (some m) (pc.provider :: att)).result = .ok r := hok
              obtain ⟨pre', pc', post', hchain, hi, hmem, hcb, hdom, hnos⟩ :=
                ih _ _ (some m) (pc.provider :: att) r hnd' hok
              have hsub : ∀ x, x ∈ ((pre' ++ [pc']).map fun q => q.provider) →
                  x ∈ rest.map fun q => q.provider := by
                intro x hx
                rw [hchain]
                simp only [List.map_append, List.map_cons, List.mem_append,
                  List.mem_cons, List.map_nil, List.mem_singleton] at hx ⊢
                tauto
              refine ⟨pc :: pre', pc', post', by rw [hchain, List.cons_append], hi, ?_, ?_, ?_, ?_⟩
              · rw [heq]
                exact List.mem_append_right _ hmem
              · rw [heq]
                exact hcb
              · rw [heq]
                intro e he
                rcases List.mem_append.mp he with h1 | h1
                · simp [tagEvents_provider pc.provider _ e h1]
                · have hd := hdom e h1
                  simp only [List.cons_append, List.map_cons, List.mem_cons]
                  simp only [List.map_append] at hd ⊢
                  right
                  exact hd
              · rw [heq]
                intro q hq habs
                rcases List.mem_append.mp habs with h1 | h1
                · exact tagEvents_no_rsuccess _ _ _ h1
                · rcases List.mem_cons.mp hq with rfl | hq'
                  · have := hdom _ h1
                    exact hpnot (hsub _ this)
                  · exact hnos q hq' h1
          case errFail =>
              have heq := generate_go_err invoke now j rc pc rest cbs hs le att
                m hce hrl
              rw [heq] at hok
              replace hok : (generate_go invoke now j rc rest
                  (Function.update cbs pc.provider
                    (((cbs pc.provider).can_execute now).2.record_failure now))
                  (Function.update hs pc.provider
                    (errFailHealth (hs pc.provider)
                      (((cbs pc.provider).can_execute now).2.record_failure now) m))
                  (some m) (pc.provider :: att)).result = .ok r := hok
              obtain ⟨pre', pc', post', hchain, hi, hmem, hcb, hdom, hnos⟩ :=
                ih _ _ (some m) (pc.provider :: att) r hnd' hok
              have hsub : ∀ x, x ∈ ((pre' ++ [pc']).map fun q => q.provider) →
                  x ∈ rest.map fun q => q.provider := by
                intro x hx
                rw [hchain]
                simp only [List.map_append, List.map_cons, List.mem_append,
                  List.mem_cons, List.map_nil, List.mem_singleton] at hx ⊢
                tauto
              refine ⟨pc :: pre', pc', post', by rw [hchain, List.cons_append], hi, ?_, ?_, ?_, ?_⟩
              · rw [heq]
                refine List.mem_append_right _ (List.mem_cons.mpr (Or.inr hmem))
              · rw [heq]
                exact hcb
              · rw [heq]
                intro e he
                rcases List.mem_append.mp he with h1 | h1
                · simp [tagEvents_provider pc.provider _ e h1]
                · rcases List.mem_cons.mp h1 with rfl | h2
                  · simp [TraceEvent.provider]
                  · have hd := hdom e h2
                    simp only [List.cons_append, List.map_cons, List.mem_cons]
                    simp only [List.map_append] at hd ⊢
                    right
                    exact hd
              · rw [heq]
                intro q hq habs
                rcases List.mem_append.mp habs with h1 | h1
                · exact tagEvents_no_rsuccess _ _ _ h1
                · rcases List.mem_cons.mp h1 with h2 | h2
                  · exact TraceEvent.noConfusion h2
                  · rcases List.mem_cons.mp hq with rfl | hq'
                    · have := hdom _ h2
                      exact hpnot (hsub _ this)
                    · exact hnos q hq' h2

theorem generate_go_events_providers (invoke : LLMProvider → Nat → ProviderOutcome)
    (now : Nat) (j : LLMProvider → Nat → ℚ) (rc : RetryConfig) :
    ∀ (chain : List ProviderConfig) (cbs : LLMProvider → CircuitBreaker)
      (hs : LLMProvider → ProviderHealth) (le : Option String)
      (att : List LLMProvider),
      ∀ e ∈ (generate_go invoke now j rc chain cbs hs le att).events,
        e.provider ∈ chain.map fun q => q.provider := by
  intro chain
  induction chain with
  | nil =>
      intro cbs hs le att e he
      simp [generate_go] at he
  | cons pc rest ih =>
      intro cbs hs le att e he
      simp only [List.map_cons, List.mem_cons]
      cases hce : ((cbs pc.provider).can_execute now).1
      case false =>
          rw [generate_go_skip invoke now j rc pc rest cbs hs le att hce] at he
          exact Or.inr (ih _ hs le att e he)
      case true =>
          rcases hrl : (retry_loop (invoke pc.provider) rc (j pc.provider) 0
              (min pc.max_retries rc.max_attempts)).1 with r0 | m | m
          case ok =>
              rw [generate_go_ok invoke now j rc pc rest cbs hs le att
                r0 hce hrl] at he
              rcases List.mem_append.mp he with h1 | h1
              · exact Or.inl (tagEvents_provider _ _ e h1)
              · simp only [List.mem_singleton] at h1
                subst h1
                exact Or.inl rfl
          case authFail =>
              rw [generate_go_auth invoke now j rc pc rest cbs hs le att
                m hce hrl] at he
              rcases List.mem_append.mp he with h1 | h1
              · exact Or.inl (tagEvents_provider _ _ e h1)
              · exact Or.inr (ih _ _ (some m) (pc.provider :: att) e h1)
          case errFail =>
              rw [generate_go_err invoke now j rc pc rest cbs hs le att
                m hce hrl] at he
              rcases List.mem_append.mp he with h1 | h1
              · exact Or.inl (tagEvents_provider _ _ e h1)
              · rcases List.mem_cons.mp h1 with rfl | h2
                · exact Or.inl rfl
                · exact Or.inr (ih _ _ (some m) (pc.provider :: att) e h2)

theorem generate_go_denied_no_events (invoke : LLMProvider → Nat → ProviderOutcome)
    (now : Nat) (j : LLMProvider → Nat → ℚ) (rc : RetryConfig) :
    ∀ (chain : List ProviderConfig) (cbs : LLMProvider → CircuitBreaker)
      (hs : LLMProvider → ProviderHealth) (le : Option String)
      (att : List LLMProvider),
      (chain.map fun q => q.provider).Nodup →
      ∀ q ∈ chain, ((cbs q.provider).can_execute now).1 = false →
      ∀ e ∈ (generate_go invoke now j rc chain cbs hs le att).events,
        e.provider ≠ q.provider := by
  intro chain
  induction chain with
  | nil =>
      intro cbs hs le att _ q hq
      simp at hq
  | cons pc rest ih =>
      intro cbs hs le att hnd q hq hden e he
      rw [List.map_cons, List.nodup_cons] at hnd
      obtain ⟨hpnot, hnd'⟩ := hnd
      rcases List.mem_cons.mp hq with rfl | hq'
      · rw [generate_go_skip invoke now j rc q rest cbs hs le att hden] at he
        have hmem := generate_go_events_providers invoke now j rc rest _
          hs le att e he
        intro habs
        rw [habs] at hmem
        exact hpnot hmem
      · have hqne : q.provider ≠ pc.provider := by
          intro habs
          exact hpnot (habs ▸ List.mem_map.mpr ⟨q, hq', rfl⟩)
        cases hce : ((cbs pc.provider).can_execute now).1
        case false =>
            rw [generate_go_skip invoke now j rc pc rest cbs hs le att hce] at he
            have hupd : Function.update cbs pc.provider
                ((cbs pc.provider).can_execute now).2 q.provider
                = cbs q.provider := Function.update_noteq hqne _ _
            exact ih _ hs le att hnd' q hq' (by rw [hupd]; exact hden) e he
        case true =>
            rcases hrl : (retry_loop (invoke pc.provider) rc (j pc.provider) 0
                (min pc.max_retries rc.max_attempts)).1 with r0 | m | m
            case ok =>
                rw [generate_go_ok invoke now j rc pc rest cbs hs le att
                  r0 hce hrl] at he
                rcases List.mem_append.mp he with h1 | h1
                · rw [tagEvents_provider _ _ e h1]
                  exact fun h => hqne h.symm
                · simp only [List.mem_singleton] at h1
                  subst h1
                  exact fun h => hqne h.symm
            case authFail =>
                rw [generate_go_auth invoke now j rc pc rest cbs hs le att
                  m hce hrl] at he
                rcases List.mem_append.mp he with h1 | h1
                · rw [tagEvents_provider _ _ e h1]
                  exact fun h => hqne h.symm
                · have hupd : Function.update cbs pc.provider
                      ((cbs pc.provider).can_execute now).2 q.provider
                      = cbs q.provider := Function.update_noteq hqne _ _
                  exact ih _ _ (some m) (pc.provider :: att) hnd' q hq'
                    (by rw [hupd]; exact hden) e h1
            case errFail =>
                rw [generate_go_err invoke now j rc pc rest cbs hs le att
                  m hce hrl] at he
                rcases List.mem_append.mp he with h1 | h1
                · rw [tagEvents_provider _ _ e h1]
                  exact fun h => hqne h.symm
                · rcases List.mem_cons.mp h1 with rfl | h2
                  · exact fun h => hqne h.symm
                  · have hupd : Function.update cbs pc.provider
                        (((cbs pc.provider).can_execute now).2.record_failure now)
                        q.provider = cbs q.provider :=
                      Function.update_noteq hqne _ _
                    exact ih _ _ (some m) (pc.provider :: att) hnd' q hq'
                      (by rw [hupd]; exact hden) e h2

/-- C1.  (a) Skip guarantee: any provider in the fallback chain whose
circuit breaker denies admission at call time contributes no trace event
whatsoever — no invocation attempt, no sleep, no breaker call — so an
Open-breaker provider is never contacted.  (b) Whenever `generate_text`
returns a response, the fallback chain splits as `pre ++ pc :: post`
where `pc` is the provider that succeeded: the response comes from `pc`'s
invoker, `record_success` was called on `pc`'s breaker (trace event and
updated breaker map), every trace event belongs to `pre` or `pc` so no
provider after `pc` was ever invoked, and no provider before `pc`
succeeded. -/
theorem generate_text_first_success (svc : LLMService)
    (invoke : LLMProvider → Nat → ProviderOutcome) (now : Nat)
    (j : LLMProvider → Nat → ℚ) (r : LLMResponse)
    (hnd : (svc.fallback_chain.map fun q => q.provider).Nodup)
    (hok : (generate_text svc invoke now j).result = .ok r) :
    (∀ q ∈ svc.fallback_chain,
      ((svc.circuit_breakers q.provider).can_execute now).1 = false →
      ∀ e ∈ (generate_text svc invoke now j).events,
        e.provider ≠ q.provider) ∧
    ∃ pre pc post,
      svc.fallback_chain = pre ++ pc :: post ∧
      (∃ i, invoke pc.provider i = ProviderOutcome.success r) ∧
      TraceEvent.rsuccess pc.provider ∈ (generate_text svc invoke now j).events ∧
      (∃ b : CircuitBreaker,
        (generate_text svc invoke now j).circuit_breakers pc.provider
          = b.record_success now) ∧
      (∀ e ∈ (generate_text svc invoke now j).events,
        e.provider ∈ (pre ++ [pc]).map fun q => q.provider) ∧
      (∀ q ∈ pre, TraceEvent.rsuccess q.provider ∉
        (generate_text svc invoke now j).events) :=
  ⟨fun q hq hden =>
    generate_go_denied_no_events invoke now j svc.retry_config
      svc.fallback_chain svc.circuit_breakers svc.provider_health none []
      hnd q hq hden,
   generate_go_ok_structure invoke now j svc.retry_config svc.fallback_chain
     svc.circuit_breakers svc.provider_health none [] r hnd hok⟩

/-- C1 witness inputs: provider A (openai) has an Open breaker whose
recovery timeout has not elapsed, provider B (mistral) succeeds. -/
def cbsC1 : LLMProvider → CircuitBreaker := fun p =>
  match p with
  | .openai =>
      { cbInit "openai" with
        state := .open_, last_failure_time := some 0,
        failure_count := 5, consecutive_failures := 5, total_requests := 5 }
  | _ => cbInit p.value

def respB : LLMResponse :=
  { text := "ok", model := "mistral-small", provider := "mistral" }

def invokeC1 : LLMProvider → Nat → ProviderOutcome := fun p _ =>
  match p with
  | .mistral => .success respB
  | _ => .invalidKey ("bad key")

def svcC1 : LLMService :=
  { primary_provider := "openai", providers := [pcA, pcB],
    fallback_chain := [pcA, pcB], circuit_breakers := cbsC1,
    provider_health := hsInit, retry_config := rcEx }

theorem generate_text_first_success_witness :
    (∀ q ∈ svcC1.fallback_chain,
      ((svcC1.circuit_breakers q.provider).can_execute 10).1 = false →
      ∀ e ∈ (generate_text svcC1 invokeC1 10 jEx).events,
        e.provider ≠ q.provider) ∧
    ∃ pre pc post,
      svcC1.fallback_chain = pre ++ pc :: post ∧
      (∃ i, invokeC1 pc.provider i = ProviderOutcome.success respB) ∧
      TraceEvent.rsuccess pc.provider ∈
        (generate_text svcC1 invokeC1 10 jEx).events ∧
      (∃ b : CircuitBreaker,
        (generate_text svcC1 invokeC1 10 jEx).circuit_breakers pc.provider
          = b.record_success 10) ∧
      (∀ e ∈ (generate_text svcC1 invokeC1 10 jEx).events,
        e.provider ∈ (pre ++ [pc]).map fun q => q.provider) ∧
      (∀ q ∈ pre, TraceEvent.rsuccess q.provider ∉
        (generate_text svcC1 invokeC1 10 jEx).events) :=
  generate_text_first_success svcC1 invokeC1 10 jEx respB (by decide) (by decide)

theorem degradeAdjust_failure_rate (cb : CircuitBreaker) (h : ProviderHealth) :
    (degradeAdjust cb h).failure_rate = h.failure_rate := by
  simp only [degradeAdjust]
  split
  · rfl
  split
  · rfl
  split
  · split <;> rfl
  · rfl

theorem degradeAdjust_cbstate (cb : CircuitBreaker) (h : ProviderHealth) :
    (degradeAdjust cb h).circuit_breaker_state = h.circuit_breaker_state := by
  simp only [degradeAdjust]
  split
  · rfl
  split
  · rfl
  split
  · split <;> rfl
  · rfl

theorem degradeAdjust_error_count (cb : CircuitBreaker) (h : ProviderHealth) :
    (degradeAdjust cb h).error_count = h.error_count := by
  simp only [degradeAdjust]
  split
  · rfl
  split
  · rfl
  split
  · split <;> rfl
  · rfl

theorem validate_api_key_frame (svc : LLMService) (p : LLMProvider)
    (probe : ProbeOutcome) (now : Nat) :
    (validate_api_key svc p probe now).2.circuit_breakers = svc.circuit_breakers ∧
    (validate_api_key svc p probe now).2.providers = svc.providers := by
  rcases probe with rt | m <;> simp only [validate_api_key] <;>
    split <;> simp

/-- C8 amended: two successive health reads with the same probe outcome
return identical failure rates and identical breaker-state snapshots, and
neither read modifies any circuit breaker; the health record itself,
however, is rewritten by each read (see the counterexample). -/
theorem check_provider_health_idempotent (svc : LLMService) (p : LLMProvider)
    (probe : ProbeOutcome) (now : Nat) :
    (check_provider_health ((check_provider_health svc p probe now).2)
        p probe now).1.failure_rate
      = (check_provider_health svc p probe now).1.failure_rate ∧
    (check_provider_health ((check_provider_health svc p probe now).2)
        p probe now).1.circuit_breaker_state
      = (check_provider_health svc p probe now).1.circuit_breaker_state ∧
    (check_provider_health svc p probe now).2.circuit_breakers
      = svc.circuit_breakers ∧
    (check_provider_health ((check_provider_health svc p probe now).2)
        p probe now).2.circuit_breakers
      = svc.circuit_breakers := by
  rcases probe with rt | m <;>
    by_cases h1 : (svc.providers.find? fun q => decide (q.provider = p)).isNone <;>
    by_cases h2 : (svc.circuit_breakers p).state = CircuitBreakerState.open_ <;>
    by_cases h3 : (svc.circuit_breakers p)._should_attempt_reset now = true <;>
      simp [check_provider_health, validate_api_key, h1, h2, h3,
        Function.update_same, degradeAdjust_failure_rate, degradeAdjust_cbstate]

/-- C8 counterexample: a single health read of a provider whose probe
request fails increments the stored health record's `error_count`
(lines 368-370 via `validate_api_key`), so a health read does mutate the
health record, contradicting the claim's "pure read" part. -/
theorem check_health_mutation_counterexample :
    ((check_provider_health svcAuth LLMProvider.openai
        (ProbeOutcome.failure ("boom")) 0).2.provider_health
        LLMProvider.openai).error_count = 1 ∧
    (svcAuth.provider_health LLMProvider.openai).error_count = 0 := by
  constructor
  · simp [check_provider_health, validate_api_key, degradeAdjust_error_count,
      svcAuth, cbsInit, cbInit, hsInit, healthInit, pcA,
      Function.update_same]
  · rfl

/-- What a single `can_execute` read can do to a breaker: nothing, or the
Open→HalfOpen transition with the probe counter reset. -/
def breakerReadRel (cb cb' : CircuitBreaker) : Prop :=
  cb' = cb ∨ (cb.state = .open_ ∧
    cb' = { cb with state := .half_open, half_open_calls := 0 })

theorem can_execute_breakerReadRel (cb : CircuitBreaker) (now : Nat) :
    breakerReadRel cb (cb.can_execute now).2 := by
  cases hst : cb.state
  case closed => exact Or.inl (by simp [CircuitBreaker.can_execute, hst])
  case open_ =>
      simp only [CircuitBreaker.can_execute, hst]
      split
      · exact Or.inr ⟨hst, rfl⟩
      · exact Or.inl rfl
  case half_open => exact Or.inl (by simp [CircuitBreaker.can_execute, hst])

theorem breakerReadRel_trans (a b c : CircuitBreaker)
    (h1 : breakerReadRel a b) (h2 : breakerReadRel b c) :
    breakerReadRel a c := by
  rcases h1 with rfl | ⟨ha, rfl⟩
  · exact h2
  · rcases h2 with rfl | ⟨hb, _⟩
    · exact Or.inr ⟨ha, rfl⟩
    · simp at hb

theorem available_go_rel (now : Nat) :
    ∀ (chain : List ProviderConfig) (cbs : LLMProvider → CircuitBreaker)
      (q : LLMProvider),
      breakerReadRel (cbs q) ((available_go now chain cbs).2 q) := by
  intro chain
  induction chain with
  | nil => intro cbs q; exact Or.inl rfl
  | cons pc rest ih =>
      intro cbs q
      have hstep : (available_go now (pc :: rest) cbs).2 =
          (available_go now rest
            (Function.update cbs pc.provider
              ((cbs pc.provider).can_execute now).2)).2 := by
        simp [available_go]
      rw [hstep]
      refine breakerReadRel_trans _ _ _ ?_ (ih _ q)
      by_cases hq : q = pc.provider
      · subst hq
        rw [Function.update_same]
        exact can_execute_breakerReadRel _ now
      · rw [Function.update_noteq hq]
        exact Or.inl rfl

/-- C9 amended: `get_available_providers` never changes any breaker's
counters, window, timestamps or configuration; the only state change it
can make is the read-triggered Open→HalfOpen transition (with the probe
counter reset to 0) on a breaker whose recovery timeout has elapsed. -/
theorem get_available_providers_frame (svc : LLMService) (now : Nat)
    (q : LLMProvider) :
    ((get_available_providers svc now).2.circuit_breakers q).failure_count
      = (svc.circuit_breakers q).failure_count ∧
    ((get_available_providers svc now).2.circuit_breakers q).success_count
      = (svc.circuit_breakers q).success_count ∧
    ((get_available_providers svc now).2.circuit_breakers q).consecutive_failures
      = (svc.circuit_breakers q).consecutive_failures ∧
    ((get_available_providers svc now).2.circuit_breakers q).total_requests
      = (svc.circuit_breakers q).total_requests ∧
    ((get_available_providers svc now).2.circuit_breakers q).failure_rate_window
      = (svc.circuit_breakers q).failure_rate_window ∧
    ((get_available_providers svc now).2.circuit_breakers q).last_failure_time
      = (svc.circuit_breakers q).last_failure_time ∧
    ((get_available_providers svc now).2.circuit_breakers q).last_success_time
      = (svc.circuit_breakers q).last_success_time ∧
    ((get_available_providers svc now).2.circuit_breakers q).failure_threshold
      = (svc.circuit_breakers q).failure_threshold ∧
    ((get_available_providers svc now).2.circuit_breakers q).recovery_timeout
      = (svc.circuit_breakers q).recovery_timeout ∧
    ((get_available_providers svc now).2.circuit_breakers q).half_open_max_calls
      = (svc.circuit_breakers q).half_open_max_calls ∧
    ((get_available_providers svc now).2.circuit_breakers q
        = svc.circuit_breakers q ∨
      ((svc.circuit_breakers q).state = .open_ ∧
       ((get_available_providers svc now).2.circuit_breakers q).state
          = .half_open ∧
       ((get_available_providers svc now).2.circuit_breakers q).half_open_calls
          = 0)) := by
  have hR := available_go_rel now svc.fallback_chain svc.circuit_breakers q
  have hproj : (get_available_providers svc now).2.circuit_breakers q =
      (available_go now svc.fallback_chain svc.circuit_breakers).2 q := rfl
  rcases hR with h | ⟨hst, h⟩
  · rw [hproj, h]
    simp
  · rw [hproj, h]
    simp [hst]

/-- C9 counterexample input: one provider whose breaker is Open with
`last_failure_time = 0`, queried at time 100 (past the 60s recovery
timeout). -/
def svcC9 : LLMService :=
  { primary_provider := "openai", providers := [pcA],
    fallback_chain := [pcA], circuit_breakers := cbsC1,
    provider_health := hsInit, retry_config := rcEx }

/-- C9 counterexample: `get_available_providers` calls `can_execute`
(line 435), which performs the Open→HalfOpen transition, so the supposedly
read-only query changes a breaker's state. -/
theorem get_available_mutates_counterexample :
    ((get_available_providers svcC9 100).2.circuit_breakers
        LLMProvider.openai).state = .half_open ∧
    (svcC9.circuit_breakers LLMProvider.openai).state = .open_ := by
  decide

/-- C10.  Manually resetting a configured provider's breaker returns true
and changes only the state (to Closed), the failure counters and the
half-open probe counter: the lifetime counters `success_count` and
`total_requests`, both timestamps and the sliding window survive, and
every other provider's breaker is untouched. -/
theorem reset_circuit_breaker_frame (svc : LLMService) (p : LLMProvider)
    (hmem : (svc.providers.find? fun pc => decide (pc.provider = p)).isSome) :
    (reset_circuit_breaker svc p).1 = true ∧
    ((reset_circuit_breaker svc p).2.circuit_breakers p).success_count
      = (svc.circuit_breakers p).success_count ∧
    ((reset_circuit_breaker svc p).2.circuit_breakers p).total_requests
      = (svc.circuit_breakers p).total_requests ∧
    ((reset_circuit_breaker svc p).2.circuit_breakers p).last_failure_time
      = (svc.circuit_breakers p).last_failure_time ∧
    ((reset_circuit_breaker svc p).2.circuit_breakers p).last_success_time
      = (svc.circuit_breakers p).last_success_time ∧
    ((reset_circuit_breaker svc p).2.circuit_breakers p).failure_rate_window
      = (svc.circuit_breakers p).failure_rate_window ∧
    ((reset_circuit_breaker svc p).2.circuit_breakers p).state = .closed ∧
    ((reset_circuit_breaker svc p).2.circuit_breakers p).failure_count = 0 ∧
    ((reset_circuit_breaker svc p).2.circuit_breakers p).half_open_calls = 0 ∧
    ((reset_circuit_breaker svc p).2.circuit_breakers p).consecutive_failures
      = 0 ∧
    (∀ q, q ≠ p → (reset_circuit_breaker svc p).2.circuit_breakers q
      = svc.circuit_breakers q) := by
  have hnn : ((svc.providers.find? fun pc => decide (pc.provider = p)).isNone)
      = false := by
    rcases hfind : svc.providers.find? fun pc => decide (pc.provider = p) with
      _ | v
    · rw [hfind] at hmem
      simp at hmem
    · rw [hfind]
      rfl
  have hupd : (reset_circuit_breaker svc p).2.circuit_breakers p =
      (svc.circuit_breakers p)._reset := by
    simp [reset_circuit_breaker, hnn, Function.update_same]
  have hret : (reset_circuit_breaker svc p).1 = true := by
    simp [reset_circuit_breaker, hnn]
  have hother : ∀ q, q ≠ p → (reset_circuit_breaker svc p).2.circuit_breakers q
      = svc.circuit_breakers q := by
    intro q hq
    simp [reset_circuit_breaker, hnn, Function.update_noteq hq]
  refine ⟨hret, ?_, ?_, ?_, ?_, ?_, ?_, ?_, ?_, ?_, hother⟩ <;>
    rw [hupd] <;> rfl

/-- C10 witness input: a dirty Open breaker with nonzero counters,
timestamps and a nonempty sliding window. -/
def cbsC10 : LLMProvider → CircuitBreaker := fun p =>
  match p with
  | .openai =>
      { provider := "openai", failure_threshold := 5, recovery_timeout := 60,
        half_open_max_calls := 3, failure_count := 5, success_count := 7,
        last_failure_time := some 3, last_success_time := some 4,
        state := .open_, half_open_calls := 2, consecutive_failures := 5,
        total_requests := 9, failure_rate_window := [(3, true)] }
  | _ => cbInit p.value

def svcC10 : LLMService :=
  { primary_provider := "openai", providers := [pcA],
    fallback_chain := [pcA], circuit_breakers := cbsC10,
    provider_health := hsInit, retry_config := rcEx }

theorem reset_circuit_breaker_frame_witness :
    (reset_circuit_breaker svcC10 LLMProvider.openai).1 = true ∧
    ((reset_circuit_breaker svcC10 LLMProvider.openai).2.circuit_breakers
        LLMProvider.openai).success_count
      = (svcC10.circuit_breakers LLMProvider.openai).success_count ∧
    ((reset_circuit_breaker svcC10 LLMProvider.openai).2.circuit_breakers
        LLMProvider.openai).total_requests
      = (svcC10.circuit_breakers LLMProvider.openai).total_requests ∧
    ((reset_circuit_breaker svcC10 LLMProvider.openai).2.circuit_breakers
        LLMProvider.openai).last_failure_time
      = (svcC10.circuit_breakers LLMProvider.openai).last_failure_time ∧
    ((reset_circuit_breaker svcC10 LLMProvider.openai).2.circuit_breakers
        LLMProvider.openai).last_success_time
      = (svcC10.circuit_breakers LLMProvider.openai).last_success_time ∧
    ((reset_circuit_breaker svcC10 LLMProvider.openai).2.circuit_breakers
        LLMProvider.openai).failure_rate_window
      = (svcC10.circuit_breakers LLMProvider.openai).failure_rate_window ∧
    ((reset_circuit_breaker svcC10 LLMProvider.openai).2.circuit_breakers
        LLMProvider.openai).state = .closed ∧
    ((reset_circuit_breaker svcC10 LLMProvider.openai).2.circuit_breakers
        LLMProvider.openai).failure_count = 0 ∧
    ((reset_circuit_breaker svcC10 LLMProvider.openai).2.circuit_breakers
        LLMProvider.openai).half_open_calls = 0 ∧
    ((reset_circuit_breaker svcC10 LLMProvider.openai).2.circuit_breakers
        LLMProvider.openai).consecutive_failures = 0 ∧
    (∀ q, q ≠ LLMProvider.openai →
      (reset_circuit_breaker svcC10 LLMProvider.openai).2.circuit_breakers q
        = svcC10.circuit_breakers q) :=
  reset_circuit_breaker_frame svcC10 LLMProvider.openai (by decide)
